import Mathlib

/-!
Verification of the RealTajoFCBack document-extraction core against its
natural-language specification.  The Python sources are shallowly embedded:
lines of text are `List Char`, Python `int` is `Int` (or `Nat` where the
source can only produce non-negative values), fallible code returns
`Option`/`Except`.  Only the ASCII fragment (plus the Spanish accented
letters that appear in the source's literals) of Python's Unicode case
folding is modelled; every input exercised here lives in that fragment.
-/

namespace RTF

/-- A line of text, as produced by the raw document extractor. -/
abbrev Line := List Char

/-- Python `\d` on the inputs at hand: ASCII decimal digit. -/
def isPyDigit (c : Char) : Bool := '0' ≤ c ∧ c ≤ '9'

/-- Python `\s` / `str.split()` whitespace, restricted to the characters the
parsers can actually meet (ASCII whitespace plus the non-breaking spaces the
normalisers replace). -/
def isPySpace (c : Char) : Bool :=
  c = ' ' ∨ c = '\t' ∨ c = '\n' ∨ c = '\r' ∨ c = '\x0b' ∨ c = '\x0c' ∨
    c = ' ' ∨ c = ' ' ∨ c = ' '

/-- Case-map table for `str.lower`/`str.casefold`, on ASCII letters and the
Spanish accented capitals used by the source's literals. -/
def lowerTable : List (Char × Char) :=
  [('A', 'a'), ('B', 'b'), ('C', 'c'), ('D', 'd'), ('E', 'e'), ('F', 'f'), ('G', 'g'), ('H', 'h'), ('I', 'i'), ('J', 'j'), ('K', 'k'), ('L', 'l'), ('M', 'm'), ('N', 'n'), ('O', 'o'), ('P', 'p'), ('Q', 'q'), ('R', 'r'), ('S', 's'), ('T', 't'), ('U', 'u'), ('V', 'v'), ('W', 'w'), ('X', 'x'), ('Y', 'y'), ('Z', 'z'), ('Á', 'á'), ('É', 'é'), ('Í', 'í'), ('Ó', 'ó'), ('Ú', 'ú'), ('Ü', 'ü'), ('Ñ', 'ñ')]

/-- Case-map table for `str.upper`, same alphabet. -/
def upperTable : List (Char × Char) :=
  [('a', 'A'), ('b', 'B'), ('c', 'C'), ('d', 'D'), ('e', 'E'), ('f', 'F'), ('g', 'G'), ('h', 'H'), ('i', 'I'), ('j', 'J'), ('k', 'K'), ('l', 'L'), ('m', 'M'), ('n', 'N'), ('o', 'O'), ('p', 'P'), ('q', 'Q'), ('r', 'R'), ('s', 'S'), ('t', 'T'), ('u', 'U'), ('v', 'V'), ('w', 'W'), ('x', 'X'), ('y', 'Y'), ('z', 'Z'), ('á', 'Á'), ('é', 'É'), ('í', 'Í'), ('ó', 'Ó'), ('ú', 'Ú'), ('ü', 'Ü'), ('ñ', 'Ñ')]

/-- Python `str.lower`/`str.casefold` on one character (modelled alphabet). -/
def pyLower (c : Char) : Char := (lowerTable.lookup c).getD c

/-- Python `str.upper` on one character (modelled alphabet). -/
def pyUpper (c : Char) : Char := (upperTable.lookup c).getD c

/-- Python `str.isalpha` per character, on the modelled alphabet (ASCII plus
the Latin-1 letters, i.e. exactly the class `[A-Za-zÀ-ÖØ-öø-ÿ]` used by the
row/letter regexes of the source). -/
def isPyAlpha (c : Char) : Bool :=
  ('A' ≤ c ∧ c ≤ 'Z') ∨ ('a' ≤ c ∧ c ≤ 'z') ∨
    (0xC0 ≤ c.toNat ∧ c.toNat ≤ 0xD6) ∨ (0xD8 ≤ c.toNat ∧ c.toNat ≤ 0xF6) ∨
    (0xF8 ≤ c.toNat ∧ c.toNat ≤ 0xFF)

/-- Python `\w` (word character) on the modelled alphabet. -/
def isPyWord (c : Char) : Bool := isPyAlpha c ∨ isPyDigit c ∨ c = '_'

/-- Numeric value of a decimal digit character. -/
def digitValC (c : Char) : Nat := c.toNat - '0'.toNat

/-- `re.sub(r"\s+", " ", line)`: every whitespace character becomes an ASCII
space and runs of whitespace collapse to a single space. -/
def collapseSpaces : Line → Line
  | [] => []
  | c :: rest =>
      if isPySpace c then
        match collapseSpaces rest with
        | [] => [' ']
        | d :: tail => if d = ' ' then d :: tail else ' ' :: d :: tail
      else c :: collapseSpaces rest

/-- `str.strip()` (whitespace strip on both ends). -/
def pyStrip (l : Line) : Line :=
  ((l.dropWhile isPySpace).reverse.dropWhile isPySpace).reverse

/-- `re.sub(r"\s+", " ", line).strip()`. -/
def normalizeWs (l : Line) : Line := pyStrip (collapseSpaces l)

/-- `str.strip(chars)` for an explicit character set. -/
def pyStripChars (chars : List Char) (l : Line) : Line :=
  ((l.dropWhile (· ∈ chars)).reverse.dropWhile (· ∈ chars)).reverse

/-- `str.startswith` on lists. -/
def startsWithL (l pre : Line) : Bool := List.isPrefixOf pre l

/-- Substring containment (`needle in haystack` for Python strings). -/
def containsSub (l sub : Line) : Bool := decide (sub <:+: l)

/-- Value of a digit-character run, as produced by Python `int`. -/
def natOfDigitChars (ds : Line) : Nat :=
  ds.foldl (fun acc c => acc * 10 + digitValC c) 0

end RTF

namespace ClassificationExtractor

open RTF

/-- The nine statistic keys of `classification_extractor._STAT_KEYS`. -/
def STAT_KEYS : List String :=
  ["points", "played", "wins", "draws", "losses", "goals_for",
   "goals_against", "last_points", "sanction_points"]

/-- `_STAT_LENGTH_RULES`: candidate digit-field widths per statistic
position, in the order the backtracking tries them. -/
def STAT_LENGTH_RULES : List (List Nat) :=
  [[3, 2, 1], [2, 1], [2, 1], [2, 1], [2, 1], [2, 1], [2, 1], [2, 1], [2, 1]]

/-- `_stats_are_consistent`: the consistency oracle over decoded values.
Mirrors the Python tuple unpacking `points, played, wins, draws, losses,
*_rest, last_points, sanction = values`. -/
def stats_are_consistent (values : List Int) : Bool :=
  if values.length < STAT_KEYS.length then false
  else
    let points := values.getD 0 0
    let played := values.getD 1 0
    let wins := values.getD 2 0
    let draws := values.getD 3 0
    let losses := values.getD 4 0
    let last_points := values.getD (values.length - 2) 0
    let sanction := values.getD (values.length - 1) 0
    if played ≠ wins + draws + losses then false
    else
      let computed_points := wins * 3 + draws - sanction
      if computed_points < 0 then false
      else if computed_points ≠ points then false
      else if last_points < 0 ∨ sanction < 0 then false
      else true

/-- `_partial_stats_are_valid` (named without the leading underscore): the
pruning predicate checked after every appended value. -/
def interim_stats_are_valid (values : List Int) : Bool :=
  if values.length ≤ 1 then true
  else
    let played := values.getD 1 0
    if 3 ≤ values.length ∧ played < values.getD 2 0 then false
    else if 4 ≤ values.length ∧ played < values.getD 2 0 + values.getD 3 0 then false
    else if 5 ≤ values.length ∧
        played < values.getD 2 0 + values.getD 3 0 + values.getD 4 0 then false
    else true

/-- `int(digits[position : position + length])` where `digits` is a run of
decimal digits, kept as their numeric values. -/
def valueOfDigits (ds : List Nat) : Int :=
  ds.foldl (fun acc d => acc * 10 + (d : Int)) 0

/-- The `for length in rules[stat_index]` loop body of the backtracking:
try each candidate width in order, recursing (through `next`) on success and
falling through on failure. -/
def try_widths (digits : List Nat) (next : Nat → List Int → Option (List Int)) :
    List Nat → Nat → List Int → Option (List Int)
  | [], _, _ => none
  | len :: more, pos, acc =>
      if digits.length < pos + len then try_widths digits next more pos acc
      else if interim_stats_are_valid
          (acc ++ [valueOfDigits ((digits.drop pos).take len)]) = true then
        match next (pos + len)
            (acc ++ [valueOfDigits ((digits.drop pos).take len)]) with
        | some solution => some solution
        | none => try_widths digits next more pos acc
      else try_widths digits next more pos acc

/-- The recursive `backtrack` of `_segment_digits_sequence`, with the
remaining per-position length rules as explicit structure (the Python code
indexes `_STAT_LENGTH_RULES[stat_index]`; here the list of remaining rules is
consumed front-to-back, which is the same traversal). -/
def segment_next (digits : List Nat) :
    List (List Nat) → Nat → List Int → Option (List Int)
  | [], pos, acc =>
      if pos = digits.length ∧ stats_are_consistent acc = true then some acc else none
  | lengths :: rest, pos, acc =>
      if digits.length - pos < rest.length + 1 then none
      else try_widths digits (segment_next digits rest) lengths pos acc

/-- `_segment_digits_sequence` for the nine statistics columns. -/
def segment_digits_sequence (digits : List Nat) : Option (List Int) :=
  if digits = [] then none
  else segment_next digits STAT_LENGTH_RULES 0 []

/-- `_should_split_token`. -/
def should_split_token (token : List Nat) (remaining_slots tokens_left : Nat) : Bool :=
  if remaining_slots ≤ tokens_left then false
  else if token.length ≤ 2 then false
  else if token.all (fun d => token.head? = some d) then true
  else tokens_left = 1

/-- The inner `for digit in token` loop: append single digits, stopping as
soon as `expected_values` entries exist. -/
def append_token_digits (expected : Nat) : List Int → List Nat → List Int
  | values, [] => values
  | values, d :: ds =>
      let values2 := values ++ [(d : Int)]
      if expected ≤ values2.length then values2
      else append_token_digits expected values2 ds

/-- The `for index, token in enumerate(tokens)` fallback loop of
`_decode_stats_from_tokens` (the enumeration index only feeds
`tokens_left = len(tokens) - index`, recovered here from the suffix length). -/
def split_token_loop (expected : Nat) : List (List Nat) → List Int → List Int
  | [], values => values
  | token :: rest, values =>
      if expected ≤ values.length then values
      else
        let remaining_slots := expected - values.length
        let tokens_left := rest.length + 1
        if should_split_token token remaining_slots tokens_left then
          split_token_loop expected rest (append_token_digits expected values token)
        else split_token_loop expected rest (values ++ [valueOfDigits token])

/-- `_normalize_stat_values`; its `re.findall(r"\d", stats_section)` argument
is passed here directly as the list of digits of the section. -/
def normalize_stat_values (values : List Int) (expected : Nat)
    (digits : List Nat) : List Int :=
  if expected ≤ values.length then values.take expected
  else if digits = [] then
    values ++ List.replicate (expected - values.length) (values.getLastD 0)
  else
    let default_value : Int :=
      if digits.all (· = 0) then 0 else values.getLastD 0
    values ++ List.replicate (expected - values.length) default_value

/-- `_pad_missing_statistics`. -/
def pad_missing_statistics (values : List Int) (expected : Nat) : List Int :=
  if expected ≤ values.length then values.take expected
  else values ++ List.replicate (expected - values.length) (values.getLastD 0)

/-- The first attempt of `_decode_stats_from_tokens`: when at least nine
whitespace-separated numeric tokens exist, accept their first nine iff the
consistency oracle passes (source lines 247-251). -/
def first_attempt_decode (tokens : List (List Nat)) : Option (List Int) :=
  if STAT_KEYS.length ≤ tokens.length ∧
      stats_are_consistent ((tokens.map valueOfDigits).take STAT_KEYS.length) = true then
    some ((tokens.map valueOfDigits).take STAT_KEYS.length)
  else none

/-- `_decode_stats_from_tokens`: tokens are kept as their digit runs. -/
def decode_stats_from_tokens (tokens : List (List Nat)) (expected : Nat) :
    Option (List Int) :=
  if tokens = [] then none
  else
    let numeric_tokens := tokens.map valueOfDigits
    let first_try :=
      if expected ≤ tokens.length ∧
          stats_are_consistent (numeric_tokens.take expected) = true then
        some (numeric_tokens.take expected)
      else none
    match first_try with
    | some candidate => some candidate
    | none =>
        let digits_sequence := tokens.flatten
        match segment_digits_sequence digits_sequence with
        | some segmented => some segmented
        | none =>
            if expected ≤ numeric_tokens.length then
              some (numeric_tokens.take expected)
            else
              let values := split_token_loop expected tokens []
              let normalized := normalize_stat_values values expected digits_sequence
              if normalized = [] then none else some normalized

/-- Right fold underlying `digitRuns`: the first component is the digit run
currently open at the front, the second the completed runs to the right. -/
def digitRunsF (l : Line) : List Nat × List (List Nat) :=
  l.foldr
    (fun c acc =>
      if isPyDigit c then (digitValC c :: acc.1, acc.2)
      else ([], if acc.1.isEmpty then acc.2 else acc.1 :: acc.2))
    ([], [])

/-- `re.findall(r"\d+", section)`: the maximal digit runs of a line, as
numeric digit lists. -/
def digitRuns (l : Line) : List (List Nat) :=
  if (digitRunsF l).1.isEmpty then (digitRunsF l).2
  else (digitRunsF l).1 :: (digitRunsF l).2

/-- `_extract_stat_values`. -/
def extract_stat_values (stats_section : Line) : List Int :=
  let expected := STAT_KEYS.length
  let tokens := digitRuns stats_section
  let values :=
    match decode_stats_from_tokens tokens expected with
    | some v => v
    | none => normalize_stat_values [] expected tokens.flatten
  pad_missing_statistics values expected

/-- The nine decoded statistics of one classification row, one field per key
of `_STAT_KEYS` (the Python `stats` dict is built with exactly these keys). -/
structure StatsMap where
  points : Option Int
  played : Option Int
  wins : Option Int
  draws : Option Int
  losses : Option Int
  goals_for : Option Int
  goals_against : Option Int
  last_points : Option Int
  sanction_points : Option Int
deriving DecidableEq, Repr

/-- `{key: values[i] if i < len(values) else None for i, key in enumerate(_STAT_KEYS)}`. -/
def statsMapOf (values : List Int) : StatsMap :=
  { points := values.get? 0
    played := values.get? 1
    wins := values.get? 2
    draws := values.get? 3
    losses := values.get? 4
    goals_for := values.get? 5
    goals_against := values.get? 6
    last_points := values.get? 7
    sanction_points := values.get? 8 }

/-- A parsed classification row (the dataclass local to the extractor). -/
structure ClassificationRow where
  position : Nat
  team : Line
  stats : StatsMap
  raw : Line
deriving DecidableEq, Repr

/-- `_ROW_PATTERN.match(line)`, the regex `^(\d+)\s*(.+)$`: greedy leading
digits (backtracking one digit when the rest of the line is empty, so that
`.+` can still consume one character), then greedy whitespace (backtracking
one space in the all-whitespace-tail case). -/
def row_pattern_match (l : Line) : Option (Nat × Line) :=
  let ds := l.takeWhile isPyDigit
  let rest := l.drop ds.length
  if ds.isEmpty then none
  else if rest.isEmpty then
    if 2 ≤ ds.length then
      some (natOfDigitChars (ds.take (ds.length - 1)), ds.drop (ds.length - 1))
    else none
  else
    let body := rest.dropWhile isPySpace
    if body.isEmpty then some (natOfDigitChars ds, rest.drop (rest.length - 1))
    else some (natOfDigitChars ds, body)

/-- Length of the maximal suffix of `l` whose characters satisfy `p`. -/
def suffixCount (p : Char → Bool) (l : Line) : Nat :=
  (l.reverse.takeWhile p).length

/-- `_TRAILING_NUMBERS_PATTERN.search(body)`, the regex `(\d[\d\s]*)$`: the
match, when it exists, starts at the first digit of the maximal trailing run
of digits and whitespace.  Returns `(team-part, stats-section)`. -/
def split_trailing_numbers (body : Line) : Line × Line :=
  let tailLen := suffixCount (fun c => isPyDigit c ∨ isPySpace c) body
  let tail := body.drop (body.length - tailLen)
  let lead := tail.takeWhile (fun c => ¬ isPyDigit c)
  if tail.length ≤ lead.length then (body, [])
  else (body.take (body.length - tailLen + lead.length), tail.drop lead.length)

/-- `_parse_row`. -/
def parse_row (line : Line) : Option ClassificationRow :=
  match row_pattern_match line with
  | none => none
  | some (position, body0) =>
      let body := pyStrip body0
      if body.isEmpty then none
      else
        let parts := split_trailing_numbers body
        let team := pyStrip parts.1
        let stats_section := parts.2
        if team.isEmpty then none
        else
          let stats_values := extract_stat_values stats_section
          some { position := position, team := team,
                 stats := statsMapOf stats_values, raw := line }

/-- `_is_row_start`: leading digit and at least one letter anywhere. -/
def is_row_start (line : Line) : Bool :=
  (match line.head? with
   | some c => isPyDigit c
   | none => false) && line.any isPyAlpha

/-- `_merge_row_lines` loop; Python's `if current_row:` is truthiness, so an
empty (falsy) open row is neither emitted nor extended. -/
def merge_row_lines_aux : List Line → Option Line → List Line
  | [], none => []
  | [], some current => if current.isEmpty then [] else [pyStrip current]
  | line :: rest, current =>
      if is_row_start line then
        match current with
        | some cur =>
            if cur.isEmpty then merge_row_lines_aux rest (some line)
            else pyStrip cur :: merge_row_lines_aux rest (some line)
        | none => merge_row_lines_aux rest (some line)
      else
        match current with
        | some cur =>
            if cur.isEmpty then merge_row_lines_aux rest (some cur)
            else merge_row_lines_aux rest (some (pyStrip (cur ++ ' ' :: line)))
        | none => merge_row_lines_aux rest none

/-- `_merge_row_lines` entry point. -/
def merge_row_lines (lines : List Line) : List Line :=
  merge_row_lines_aux lines none

/-- `line.casefold()` containment of the literal `"equipos"`. -/
def containsEquipos (l : Line) : Bool :=
  containsSub (l.map pyLower) ("equipos".toList)

/-- `_find_section_start`. -/
def find_section_start : List Line → Option Nat
  | [] => none
  | line :: rest =>
      if containsEquipos line then some 0
      else (find_section_start rest).map (· + 1)

/-- `_find_section_end`: first line at or after the header that case-folds to
contain `"resultado provisional"` or starts with `"(*)"`. -/
def is_section_end_line (l : Line) : Bool :=
  containsSub (l.map pyLower) ("resultado provisional".toList) ∨
    startsWithL (l.map pyLower) ("(*)".toList)

/-- `_find_section_end` as an index into the line list. -/
def find_section_end (lines : List Line) (start_index : Nat) : Nat :=
  match (lines.drop start_index).findIdx? is_section_end_line with
  | some offset => start_index + offset
  | none => lines.length

/-- The extracted classification table (the dataclass local to the extractor
module; the optional last-match summary lives in the domain model instead). -/
structure ClassificationTable where
  headers : List Line
  rows : List ClassificationRow
deriving DecidableEq, Repr

/-- `extract_classification`, over the flattened page contents. -/
def extract_classification (pages : List (List Line)) :
    Except String ClassificationTable :=
  let lines := pages.flatten
  let normalized_lines :=
    (lines.filter (fun l => ¬ (pyStrip l).isEmpty)).map normalizeWs
  match find_section_start normalized_lines with
  | none => Except.error ("The classification header line was not found in the document.")
  | some start_index =>
      let end_index := find_section_end normalized_lines start_index
      let section_lines := (normalized_lines.take end_index).drop start_index
      if section_lines.isEmpty then Except.ok { headers := [], rows := [] }
      else
        let headers :=
          if 2 ≤ section_lines.length then section_lines.take 2 else section_lines
        let row_lines := merge_row_lines (section_lines.drop headers.length)
        Except.ok { headers := headers, rows := (row_lines.filterMap parse_row) }

/-- The integer values cut from `digits` starting at `pos` by the
consecutive field widths `ws`. -/
def segmentValues (digits : List Nat) : Nat → List Nat → List Int
  | _, [] => []
  | pos, w :: ws =>
      valueOfDigits ((digits.drop pos).take w) :: segmentValues digits (pos + w) ws

/-- A segmentation of the digit run from position `pos` with accumulated
values `acc`: one field width per remaining rule, each width drawn from its
rule, staying inside the run, every extended prefix passing the
partial-validity predicate, consuming the run exactly, with the full value
list passing the consistency oracle. -/
inductive ValidFrom (digits : List Nat) :
    List (List Nat) → Nat → List Int → List Nat → Prop
  | nil {pos : Nat} {acc : List Int} :
      pos = digits.length → stats_are_consistent acc = true →
      ValidFrom digits [] pos acc []
  | cons {lengths : List Nat} {rest : List (List Nat)} {pos : Nat}
      {acc : List Int} {w : Nat} {ws : List Nat} :
      w ∈ lengths → pos + w ≤ digits.length →
      interim_stats_are_valid
        (acc ++ [valueOfDigits ((digits.drop pos).take w)]) = true →
      ValidFrom digits rest (pos + w)
        (acc ++ [valueOfDigits ((digits.drop pos).take w)]) ws →
      ValidFrom digits (lengths :: rest) pos acc (w :: ws)

/-- Global hypotheses on the width-rule table: all candidate widths are
positive and each rule lists its candidates in strictly decreasing
(widest-first) order. -/
def rulesOK (rules : List (List Nat)) : Prop :=
  ∀ r ∈ rules, (∀ w ∈ r, 1 ≤ w) ∧ List.Pairwise (· > ·) r

/-- Completeness/first-solution specification of the backtracking on the
remaining rules. -/
def NextSpec (digits : List Nat) (rules : List (List Nat)) : Prop :=
  ∀ pos acc,
    (∀ v, segment_next digits rules pos acc = some v →
      ∃ ws, ValidFrom digits rules pos acc ws ∧
        v = acc ++ segmentValues digits pos ws ∧
        (∀ ws', ValidFrom digits rules pos acc ws' →
          ws' = ws ∨ List.Lex (· < ·) ws' ws)) ∧
    (segment_next digits rules pos acc = none →
      ∀ ws, ¬ ValidFrom digits rules pos acc ws)

/-- A segmentation whose first width is restricted to the still-untried
candidates `more` of the current rule. -/
def StepValid (digits : List Nat) (rest : List (List Nat)) (more : List Nat)
    (pos : Nat) (acc : List Int) (ws : List Nat) : Prop :=
  ∃ w ws2, ws = w :: ws2 ∧ w ∈ more ∧ pos + w ≤ digits.length ∧
    interim_stats_are_valid
      (acc ++ [valueOfDigits ((digits.drop pos).take w)]) = true ∧
    ValidFrom digits rest (pos + w)
      (acc ++ [valueOfDigits ((digits.drop pos).take w)]) ws2

end ClassificationExtractor

namespace Models

open RTF

/-- `datetime.date`: a calendar date as stored by the domain models. -/
structure Date where
  year : Nat
  month : Nat
  day : Nat
deriving DecidableEq, Repr

/-- Leap-year rule used by `datetime`. -/
def isLeap (y : Nat) : Bool := y % 4 = 0 ∧ (y % 100 ≠ 0 ∨ y % 400 = 0)

/-- Days in a month, as validated by `datetime.date`. -/
def daysInMonth (y m : Nat) : Nat :=
  if m = 2 then (if isLeap y then 29 else 28)
  else if m = 4 ∨ m = 6 ∨ m = 9 ∨ m = 11 then 30
  else 31

/-- A value `datetime.date` would accept. -/
def ValidDate (d : Date) : Prop :=
  1 ≤ d.year ∧ d.year ≤ 9999 ∧ 1 ≤ d.month ∧ d.month ≤ 12 ∧
    1 ≤ d.day ∧ d.day ≤ daysInMonth d.year d.month

/-- Decimal digit character of `n % 10`. -/
def digitChar (n : Nat) : Char := Char.ofNat ('0'.toNat + n % 10)

/-- Zero-padded two-digit rendering (`%02d`). -/
def pad2 (n : Nat) : Line := [digitChar (n / 10), digitChar n]

/-- Zero-padded four-digit rendering (`%04d`). -/
def pad4 (n : Nat) : Line :=
  [digitChar (n / 1000), digitChar (n / 100), digitChar (n / 10), digitChar n]

/-- `date.isoformat()` / `strftime("%Y-%m-%d")`. -/
def Date.isoformat (d : Date) : Line :=
  pad4 d.year ++ '-' :: (pad2 d.month ++ '-' :: pad2 d.day)

/-- The regex fragment Python's `strptime` uses for `%Y`: exactly four
digits. -/
def parseYear4 : Line → Option (Nat × Line)
  | a :: b :: c :: d :: rest =>
      if isPyDigit a ∧ isPyDigit b ∧ isPyDigit c ∧ isPyDigit d then
        some (natOfDigitChars [a, b, c, d], rest)
      else none
  | _ => none

/-- The regex fragment for `%m`: `1[0-2] | 0[1-9] | [1-9]`, alternatives in
this order. -/
def parseMonth : Line → Option (Nat × Line)
  | a :: b :: rest =>
      if a = '1' ∧ '0' ≤ b ∧ b ≤ '2' then some (10 + digitValC b, rest)
      else if a = '0' ∧ '1' ≤ b ∧ b ≤ '9' then some (digitValC b, rest)
      else if '1' ≤ a ∧ a ≤ '9' then some (digitValC a, b :: rest)
      else none
  | [a] => if '1' ≤ a ∧ a ≤ '9' then some (digitValC a, []) else none
  | [] => none

/-- The regex fragment for `%d`: `3[01] | [1-2]\d | 0[1-9] | [1-9] | [1-9]`
preceded by a space, alternatives in this order. -/
def parseDay : Line → Option (Nat × Line)
  | a :: b :: rest =>
      if a = '3' ∧ ('0' = b ∨ b = '1') then some (30 + digitValC b, rest)
      else if ('1' ≤ a ∧ a ≤ '2') ∧ isPyDigit b then
        some (digitValC a * 10 + digitValC b, rest)
      else if a = '0' ∧ '1' ≤ b ∧ b ≤ '9' then some (digitValC b, rest)
      else if '1' ≤ a ∧ a ≤ '9' then some (digitValC a, b :: rest)
      else if a = ' ' ∧ '1' ≤ b ∧ b ≤ '9' then some (digitValC b, rest)
      else none
  | [a] => if '1' ≤ a ∧ a ≤ '9' then some (digitValC a, []) else none
  | [] => none

/-- `datetime.strptime(s, "%Y-%m-%d").date()` with the calendar-range
validation `datetime` performs, returning `none` on `ValueError`. -/
def parseIsoDate (s : Line) : Option Date :=
  match parseYear4 s with
  | none => none
  | some (y, rest1) =>
      match rest1 with
      | '-' :: rest2 =>
          match parseMonth rest2 with
          | none => none
          | some (m, rest3) =>
              match rest3 with
              | '-' :: rest4 =>
                  match parseDay rest4 with
                  | none => none
                  | some (d, rest5) =>
                      if rest5 = [] ∧ 1 ≤ y ∧ 1 ≤ d ∧ d ≤ daysInMonth y m then
                        some { year := y, month := m, day := d }
                      else none
              | _ => none
      | _ => none

/-- `_TEAM_NAME_SEPARATOR_CHARS = " -,:–"`. -/
def TEAM_NAME_SEPARATOR_CHARS : List Char := [' ', '-', ',', ':', '–']

/-- `matchday._normalize_team_name`:
`" ".join(name.strip().casefold().split())` (empty for `None`). -/
def normalize_team_name (name : Option Line) : Line :=
  match name with
  | none => []
  | some n => pyStrip (collapseSpaces ((pyStrip n).map pyLower))

/-- `re.search` of the escaped literal `team_name` with `re.IGNORECASE`:
index of the leftmost case-insensitive occurrence. -/
def findCI (needle : Line) : Line → Option Nat
  | [] => if needle.isEmpty then some 0 else none
  | c :: rest =>
      if List.isPrefixOf (needle.map pyLower) ((c :: rest).map pyLower) then some 0
      else (findCI needle rest).map (· + 1)

/-- `matchday._is_meaningful_opponent`. -/
def is_meaningful_opponent (segment : Line) : Bool :=
  if segment.isEmpty then false
  else
    let normalized := normalize_team_name (some segment)
    if normalized.isEmpty then false
    else if normalized.contains ' ' then true
    else 3 ≤ (normalized.filter (fun c => isPyAlpha c)).length

/-- `matchday._extract_opponent_segment`. -/
def extract_opponent_segment (name : Option Line) (team_name : Line) : Option Line :=
  match name with
  | none => none
  | some n =>
      if n.isEmpty then none
      else
        match findCI team_name n with
        | none => none
        | some i =>
            let before := pyStripChars TEAM_NAME_SEPARATOR_CHARS (n.take i)
            let after :=
              pyStripChars TEAM_NAME_SEPARATOR_CHARS (n.drop (i + team_name.length))
            let candidates :=
              (if is_meaningful_opponent before then [before] else []) ++
                (if is_meaningful_opponent after then [after] else [])
            match candidates with
            | [single] => some single
            | _ => none

/-- `MatchFixture` (matchday domain model). -/
structure MatchFixture where
  home_team : Line
  away_team : Option Line
  home_score : Option Int := none
  away_score : Option Int := none
  is_bye : Bool := false
  date : Option Line := none
  time : Option Line := none
deriving DecidableEq, Repr

/-- The JSON-shaped dictionary `MatchFixture.to_dict` produces and
`MatchFixture.from_dict` consumes; `none` in an `Option` field models an
absent key or a JSON `null`. -/
structure FixtureDict where
  homeTeam : Option Line
  awayTeam : Option Line
  homeScore : Option Int
  awayScore : Option Int
  isBye : Bool
  date : Option Line
  time : Option Line
deriving DecidableEq, Repr

/-- `MatchFixture._serialize_for_team`, returning the `homeTeam`/`awayTeam`
pair. -/
def MatchFixture.serialize_for_team (f : MatchFixture) (team_name : Line) :
    Option Line × Option Line :=
  let normalized_target := normalize_team_name (some team_name)
  let home_contains := containsSub (normalize_team_name (some f.home_team)) normalized_target
  let away_contains := containsSub (normalize_team_name f.away_team) normalized_target
  if home_contains ∧ ¬ away_contains then
    match extract_opponent_segment (some f.home_team) team_name with
    | some opponent =>
        if opponent.isEmpty then (some f.home_team, f.away_team)
        else (some opponent, some team_name)
    | none => (some f.home_team, f.away_team)
  else if away_contains ∧ ¬ home_contains then
    (some (match extract_opponent_segment f.away_team team_name with
           | some opponent => if opponent.isEmpty then f.home_team else opponent
           | none => f.home_team),
      some team_name)
  else if home_contains ∧ away_contains then (some team_name, some team_name)
  else (some f.home_team, f.away_team)

/-- `MatchFixture.to_dict(team_name)`; `team_name` truthiness is
non-`None`-and-non-empty. -/
def MatchFixture.to_dict (f : MatchFixture) (team_name : Option Line) : FixtureDict :=
  let serialized : Option Line × Option Line :=
    if ((match team_name with | some t => !t.isEmpty | none => false) && !f.is_bye) = true then
      f.serialize_for_team (team_name.getD [])
    else (some f.home_team, f.away_team)
  { homeTeam := serialized.1
    awayTeam := serialized.2
    homeScore := f.home_score
    awayScore := f.away_score
    isBye := f.is_bye
    date := f.date
    time := f.time }

/-- `MatchFixture.from_dict`. -/
def MatchFixture.from_dict (d : FixtureDict) : MatchFixture :=
  { home_team := pyStrip (d.homeTeam.getD [])
    away_team := d.awayTeam.map pyStrip
    home_score := d.homeScore
    away_score := d.awayScore
    is_bye := d.isBye
    date := d.date.map pyStrip
    time := d.time.map pyStrip }

/-- `MatchFixture.involves_team`. -/
def MatchFixture.involves_team (f : MatchFixture) (team_name : Line) : Bool :=
  let normalized_target := normalize_team_name (some team_name)
  if normalized_target.isEmpty then false
  else
    let home_name := normalize_team_name (some f.home_team)
    let away_name := normalize_team_name f.away_team
    if f.is_bye then containsSub home_name normalized_target
    else containsSub home_name normalized_target ∨
      (¬ away_name.isEmpty ∧ containsSub away_name normalized_target)

/-- `Matchday` (matchday domain model). -/
structure Matchday where
  number : Int
  fixtures : List MatchFixture
deriving DecidableEq, Repr

/-- Serialized matchday; `matchdayNumber = none` models an absent key. -/
structure MatchdayDict where
  matchdayNumber : Option Int
  fixtures : List FixtureDict
deriving DecidableEq, Repr

/-- `Matchday.fixtures_for_team`. -/
def Matchday.fixtures_for_team (md : Matchday) (team_name : Line) :
    List MatchFixture :=
  if (normalize_team_name (some team_name)).isEmpty then []
  else md.fixtures.filter (fun f => f.involves_team team_name)

/-- `Matchday.to_dict(team_name)`. -/
def Matchday.to_dict (md : Matchday) (team_name : Option Line) : MatchdayDict :=
  let fixtures :=
    match team_name with
    | none => md.fixtures
    | some t => md.fixtures_for_team t
  { matchdayNumber := some md.number
    fixtures := fixtures.map (fun f => f.to_dict team_name) }

/-- `Matchday.from_dict`, raising on a missing or non-numeric matchday
number. -/
def Matchday.from_dict (d : MatchdayDict) : Except String Matchday :=
  match d.matchdayNumber with
  | none => Except.error ("The serialized matchday number is invalid.")
  | some number =>
      Except.ok { number := number
                  fixtures := d.fixtures.map MatchFixture.from_dict }

/-- `ClassificationLastMatchTeam`. -/
structure ClassificationLastMatchTeam where
  name : Line
  score : Int := 0
deriving DecidableEq, Repr

/-- Serialized last-match team. -/
structure LastMatchTeamDict where
  name : Option Line
  score : Option Int
deriving DecidableEq, Repr

/-- `ClassificationLastMatchTeam.to_dict`. -/
def ClassificationLastMatchTeam.to_dict (t : ClassificationLastMatchTeam) :
    LastMatchTeamDict :=
  { name := some t.name, score := some t.score }

/-- `ClassificationLastMatchTeam.from_dict`. -/
def ClassificationLastMatchTeam.from_dict (d : LastMatchTeamDict) :
    ClassificationLastMatchTeam :=
  { name := pyStrip (d.name.getD []), score := d.score.getD 0 }

/-- `ClassificationLastMatch`. -/
structure ClassificationLastMatch where
  matchday : Option Int := none
  date : Option Date := none
  home_team : ClassificationLastMatchTeam := { name := ("REAL TAJO").toList }
  away_team : ClassificationLastMatchTeam := { name := [] }
deriving DecidableEq, Repr

/-- Serialized last-match summary. -/
structure LastMatchDict where
  matchday : Option Int
  date : Option Line
  home_team : Option LastMatchTeamDict
  away_team : Option LastMatchTeamDict
deriving DecidableEq, Repr

/-- `ClassificationLastMatch.to_dict`. -/
def ClassificationLastMatch.to_dict (m : ClassificationLastMatch) : LastMatchDict :=
  { matchday := m.matchday
    date := m.date.map Date.isoformat
    home_team := some m.home_team.to_dict
    away_team := some m.away_team.to_dict }

/-- `ClassificationLastMatch.from_dict`. -/
def ClassificationLastMatch.from_dict (d : LastMatchDict) : ClassificationLastMatch :=
  { matchday := d.matchday
    date := match d.date with
            | some s => if s.isEmpty then none else parseIsoDate s
            | none => none
    home_team := match d.home_team with
                 | some td => ClassificationLastMatchTeam.from_dict td
                 | none => { name := ("REAL TAJO").toList }
    away_team := match d.away_team with
                 | some td => ClassificationLastMatchTeam.from_dict td
                 | none => { name := [] } }

/-- `ClassificationRow` (domain model); the stats dict carries exactly the
nine keys, modelled as the `StatsMap` structure. -/
structure ClassificationRow where
  position : Int
  team : Line
  stats : ClassificationExtractor.StatsMap
  raw : Line
deriving DecidableEq, Repr

/-- Nested `"matches"` dictionary of a serialized row. -/
structure MatchesDict where
  played : Option Int
  wins : Option Int
  draws : Option Int
  losses : Option Int
deriving DecidableEq, Repr

/-- Nested `"goals"` dictionary of a serialized row. -/
structure GoalsDict where
  goals_for : Option Int
  goals_against : Option Int
deriving DecidableEq, Repr

/-- Nested single-key `"points"` dictionaries (`recent_form`, `sanction`). -/
structure PointsDict where
  points : Option Int
deriving DecidableEq, Repr

/-- Serialized classification row (the constant `"columns"` metadata entry,
which `from_dict` never reads, is not modelled). -/
structure RowDict where
  position : Int
  team : Line
  points : Option Int
  matches_ : MatchesDict
  goals : GoalsDict
  recent_form : PointsDict
  sanction : PointsDict
  raw : Line
deriving DecidableEq, Repr

/-- `ClassificationRow.to_dict` (domain model). -/
def ClassificationRow.to_dict (r : ClassificationRow) : RowDict :=
  { position := r.position
    team := r.team
    points := r.stats.points
    matches_ := { played := r.stats.played, wins := r.stats.wins, draws := r.stats.draws, losses := r.stats.losses }
    goals := { goals_for := r.stats.goals_for, goals_against := r.stats.goals_against }
    recent_form := { points := r.stats.last_points }
    sanction := { points := r.stats.sanction_points }
    raw := r.raw }

/-- `ClassificationRow.from_dict` (domain model). -/
def ClassificationRow.from_dict (d : RowDict) : ClassificationRow :=
  { position := d.position
    team := d.team
    stats := { points := d.points
               played := d.matches_.played
               wins := d.matches_.wins
               draws := d.matches_.draws
               losses := d.matches_.losses
               goals_for := d.goals.goals_for
               goals_against := d.goals.goals_against
               last_points := d.recent_form.points
               sanction_points := d.sanction.points }
    raw := d.raw }

/-- `ClassificationTable` (domain model). -/
structure ClassificationTable where
  headers : List Line
  rows : List ClassificationRow
  last_match : Option ClassificationLastMatch := none
deriving DecidableEq, Repr

/-- Serialized classification table. -/
structure TableDict where
  headers : List Line
  teams : List RowDict
  last_match : Option LastMatchDict
deriving DecidableEq, Repr

/-- `ClassificationTable.to_dict`. -/
def ClassificationTable.to_dict (t : ClassificationTable) : TableDict :=
  { headers := t.headers
    teams := t.rows.map ClassificationRow.to_dict
    last_match := t.last_match.map ClassificationLastMatch.to_dict }

/-- `ClassificationTable.from_dict`. -/
def ClassificationTable.from_dict (d : TableDict) : ClassificationTable :=
  { headers := d.headers
    rows := d.teams.map ClassificationRow.from_dict
    last_match := d.last_match.map ClassificationLastMatch.from_dict }

/-- `TopScorerEntry`. -/
structure TopScorerEntry where
  player : Line
  team : Option Line
  group : Option Line
  matches_played : Option Int
  goals_total : Option Int
  goals_details : Option Line := none
  penalty_goals : Option Int := none
  goals_per_match : Option Float := none
  raw_lines : List Line := []
deriving Repr

/-- Nested `"goals"` dictionary of a serialized scorer entry. -/
structure ScorerGoalsDict where
  total : Option Int
  details : Option Line
  penalties : Option Int
deriving Repr

/-- Serialized scorer entry. -/
structure ScorerEntryDict where
  position : Int
  player : Line
  team : Option Line
  group : Option Line
  matches_played : Option Int
  goals : ScorerGoalsDict
  goals_per_match : Option Float
  raw : List Line
deriving Repr

/-- `TopScorerEntry.to_dict(position)`. -/
def TopScorerEntry.to_dict (e : TopScorerEntry) (position : Int) : ScorerEntryDict :=
  { position := position
    player := e.player
    team := e.team
    group := e.group
    matches_played := e.matches_played
    goals := { total := e.goals_total, details := e.goals_details, penalties := e.penalty_goals }
    goals_per_match := e.goals_per_match
    raw := e.raw_lines }

/-- `TopScorerEntry.from_dict`. -/
def TopScorerEntry.from_dict (d : ScorerEntryDict) : TopScorerEntry :=
  { player := d.player
    team := d.team
    group := d.group
    matches_played := d.matches_played
    goals_total := d.goals.total
    goals_details := d.goals.details
    penalty_goals := d.goals.penalties
    goals_per_match := d.goals_per_match
    raw_lines := d.raw }

/-- `TopScorersTable`. -/
structure TopScorersTable where
  title : Option Line := none
  competition : Option Line := none
  category : Option Line := none
  season : Option Line := none
  scorers : List TopScorerEntry := []
deriving Repr

/-- Serialized top scorers table (constant `"columns"` metadata entry not
modelled; `from_dict` never reads it). -/
structure ScorersTableDict where
  title : Option Line
  competition : Option Line
  category : Option Line
  season : Option Line
  rows : List ScorerEntryDict
deriving Repr

/-- `TopScorersTable.to_dict`. -/
def TopScorersTable.to_dict (t : TopScorersTable) : ScorersTableDict :=
  { title := t.title
    competition := t.competition
    category := t.category
    season := t.season
    rows := t.scorers.enum.map (fun p => p.2.to_dict ((p.1 : Int) + 1)) }

/-- `TopScorersTable.from_dict`. -/
def TopScorersTable.from_dict (d : ScorersTableDict) : TopScorersTable :=
  { title := d.title
    competition := d.competition
    category := d.category
    season := d.season
    scorers := d.rows.map TopScorerEntry.from_dict }

/-- A fixture whose string fields carry no surrounding whitespace — the shape
every parser-produced fixture has, and exactly what `from_dict`'s stripping
preserves. -/
def ValidFixture (f : MatchFixture) : Prop :=
  pyStrip f.home_team = f.home_team ∧ f.away_team.map pyStrip = f.away_team ∧
    f.date.map pyStrip = f.date ∧ f.time.map pyStrip = f.time

/-- A classification table whose optional last-match summary has stripped
team names and a calendar-valid date. -/
def ValidTable (t : ClassificationTable) : Prop :=
  ∀ lm, t.last_match = some lm →
    pyStrip lm.home_team.name = lm.home_team.name ∧
    pyStrip lm.away_team.name = lm.away_team.name ∧
    ∀ dt, lm.date = some dt → ValidDate dt

/-- Concrete matchday used to witness the round-trip theorem. -/
def sampleMatchday : Matchday :=
  { number := 1
    fixtures := [{ home_team := ("REAL TAJO").toList
                   away_team := some (("RACING").toList)
                   home_score := some 1
                   away_score := some 2
                   is_bye := false
                   date := some (("2025-10-11").toList)
                   time := some (("12:00").toList) }] }

/-- Concrete classification table used to witness the round-trip theorem. -/
def sampleTable : ClassificationTable :=
  { headers := [("Equipos Puntos").toList]
    rows := [{ position := 1
               team := ("EQUIPOA").toList
               stats := { points := some 3, played := some 1, wins := some 1,
                          draws := some 0, losses := some 0, goals_for := some 2,
                          goals_against := some 1, last_points := some 3,
                          sanction_points := some 0 }
               raw := ("1EQUIPOA 3 1 1 0 0 2 1 3 0").toList }]
    last_match := some { matchday := some 5
                         date := some { year := 2025, month := 10, day := 11 }
                         home_team := { name := ("REAL TAJO").toList, score := 2 }
                         away_team := { name := ("AMERICA").toList, score := 1 } } }

/-- Concrete top-scorers table used to witness the round-trip theorem. -/
def sampleScorers : TopScorersTable :=
  { title := some (("Estadisticas").toList)
    competition := some (("Liga Local").toList)
    category := none
    season := some (("2025").toList)
    scorers := [{ player := ("GOMEZ, LUIS").toList
                  team := some (("REAL TAJO").toList)
                  group := none
                  matches_played := some 2
                  goals_total := some 4
                  goals_details := some (("4").toList)
                  penalty_goals := none
                  goals_per_match := none
                  raw_lines := [("GOMEZ, LUIS REAL TAJO 2 4").toList] }] }

end Models

namespace MatchdayPdf

open RTF Models

/-- `_HEADER_PREFIXES`. -/
def headerPrefixList : List Line :=
  [("liga").toList, ("temporada").toList, ("calendario").toList,
   ("resultados").toList, ("equipos").toList, ("clasificacion").toList,
   ("clasificación").toList]

/-- `_METADATA_PREFIXES`. -/
def metadataPrefixList : List Line :=
  [("campo").toList, ("delegacion").toList, ("delegación").toList,
   ("r.f.f.m").toList, ("rffm").toList, ("federacion").toList,
   ("federación").toList]

/-- `_SCORE_ONLY_RE`: `^(\d+)\s*-\s*(\d+)$`. -/
def scoreOnlyMatch (l : Line) : Option (Nat × Nat) :=
  let d1 := l.takeWhile isPyDigit
  if d1.isEmpty then none
  else
    let rest1 := (l.drop d1.length).dropWhile isPySpace
    match rest1 with
    | '-' :: rest2 =>
        let rest3 := rest2.dropWhile isPySpace
        let d2 := rest3.takeWhile isPyDigit
        if d2.isEmpty then none
        else if (rest3.drop d2.length).isEmpty then
          some (natOfDigitChars d1, natOfDigitChars d2)
        else none
    | _ => none

/-- The tail `\s+(\d+)\s*-\s*(\d+)$` of `_TEAM_WITH_TRAILING_SCORE_RE`. -/
def tailTeamScore (l : Line) : Option (Nat × Nat) :=
  let sp := l.takeWhile isPySpace
  if sp.isEmpty then none
  else scoreOnlyMatch (l.drop sp.length)

/-- `_TEAM_WITH_TRAILING_SCORE_RE.match`: the lazy `(.+?)` group takes the
shortest non-empty prefix whose remainder matches the anchored score tail. -/
def teamTrailingGo (pre : Line) : Line → Option (Line × Nat × Nat)
  | [] => none
  | c :: rest =>
      match tailTeamScore rest with
      | some (a, b) => some (pre ++ [c], a, b)
      | none => teamTrailingGo (pre ++ [c]) rest

/-- Entry point for the team-with-trailing-score pattern. -/
def teamTrailingScoreMatch (l : Line) : Option (Line × Nat × Nat) :=
  teamTrailingGo [] l

/-- The tail `\s+(\d+)\s*-\s*(\d+)\s+(.+?)$` of `_INLINE_RESULT_RE`, with the
greedy/lazy backtracking resolved: the final `\s+` cedes its last space to
the away group when nothing else remains. -/
def tailInline (l : Line) : Option (Nat × Nat × Line) :=
  let sp1 := l.takeWhile isPySpace
  if sp1.isEmpty then none
  else
    let r1 := l.drop sp1.length
    let d1 := r1.takeWhile isPyDigit
    if d1.isEmpty then none
    else
      let r2 := (r1.drop d1.length).dropWhile isPySpace
      match r2 with
      | '-' :: r3 =>
          let r4 := r3.dropWhile isPySpace
          let d2 := r4.takeWhile isPyDigit
          if d2.isEmpty then none
          else
            let r5 := r4.drop d2.length
            let sp2 := r5.takeWhile isPySpace
            if sp2.isEmpty then none
            else
              let rem := r5.drop sp2.length
              if ¬ rem.isEmpty then
                some (natOfDigitChars d1, natOfDigitChars d2, rem)
              else if 2 ≤ sp2.length then
                some (natOfDigitChars d1, natOfDigitChars d2,
                  sp2.drop (sp2.length - 1))
              else none
      | _ => none

/-- `_INLINE_RESULT_RE.match`: lazy home group scanning. -/
def inlineGo (pre : Line) : Line → Option (Line × Nat × Nat × Line)
  | [] => none
  | c :: rest =>
      match tailInline rest with
      | some (h, a, away) => some (pre ++ [c], h, a, away)
      | none => inlineGo (pre ++ [c]) rest

/-- Entry point for the inline `TEAM h-a TEAM` pattern. -/
def inlineResultMatch (l : Line) : Option (Line × Nat × Nat × Line) :=
  inlineGo [] l

/-- One candidate quantifier width: the first `k` characters must satisfy
`p`. -/
def takeExact (p : Char → Bool) (k : Nat) (l : Line) : Option Line :=
  let pre := l.take k
  if pre.length = k ∧ pre.all p then some (l.drop k) else none

/-- Word-boundary test between `prev` and a word character. -/
def boundaryBefore (prev : Option Char) : Bool :=
  match prev with
  | none => true
  | some p => ¬ isPyWord p

/-- `_DATE_RE` (one or two digits, a slash-or-hyphen separator, one or two
digits, a separator, two to four digits, between word boundaries) matched at
the current position; `prev` is the character just before it and the match
length is returned.  Quantifier alternatives are tried in the regex's greedy
order. -/
def matchDateAt (prev : Option Char) (l : Line) : Option Nat :=
  if ¬ boundaryBefore prev then none
  else
    ([2, 1] : List Nat).findSome? (fun k1 =>
      match takeExact isPyDigit k1 l with
      | none => none
      | some r1 =>
          match r1 with
          | s1 :: r2 =>
              if s1 = '/' ∨ s1 = '-' then
                ([2, 1] : List Nat).findSome? (fun k2 =>
                  match takeExact isPyDigit k2 r2 with
                  | none => none
                  | some r3 =>
                      match r3 with
                      | s2 :: r4 =>
                          if s2 = '/' ∨ s2 = '-' then
                            ([4, 3, 2] : List Nat).findSome? (fun k3 =>
                              match takeExact isPyDigit k3 r4 with
                              | none => none
                              | some r5 =>
                                  match r5 with
                                  | [] => some (k1 + 1 + k2 + 1 + k3)
                                  | d :: _ =>
                                      if isPyWord d then none
                                      else some (k1 + 1 + k2 + 1 + k3))
                          else none
                      | [] => none
                  )
              else none
          | [] => none)

/-- `_TIME_RE` (one or two digits, a colon, two digits, between word
boundaries) matched at the current position. -/
def matchTimeAt (prev : Option Char) (l : Line) : Option Nat :=
  if ¬ boundaryBefore prev then none
  else
    ([2, 1] : List Nat).findSome? (fun k1 =>
      match takeExact isPyDigit k1 l with
      | none => none
      | some r1 =>
          match r1 with
          | ':' :: r2 =>
              match takeExact isPyDigit 2 r2 with
              | none => none
              | some r3 =>
                  match r3 with
                  | [] => some (k1 + 3)
                  | d :: _ => if isPyWord d then none else some (k1 + 3)
          | _ => none)

/-- `re.search` driver: leftmost match position and length. -/
def searchPat (matchAt : Option Char → Line → Option Nat) :
    Option Char → Line → Option (Line × Line)
  | _, [] => none
  | prev, c :: rest =>
      match matchAt prev (c :: rest) with
      | some len => some ((c :: rest).take len, (c :: rest).drop len)
      | none => searchPat matchAt (some c) rest

/-- `_DATE_RE.search(line)`, returning the matched text. -/
def searchDate (l : Line) : Option Line :=
  (searchPat matchDateAt none l).map (·.1)

/-- `_TIME_RE.search(line)`, returning the matched text. -/
def searchTime (l : Line) : Option Line :=
  (searchPat matchTimeAt none l).map (·.1)

/-- `re.sub(pattern, " ", text)` driver loop: replace every non-overlapping
leftmost match by one space, resuming after each match.  Each step consumes at
least one character, so a fuel of the input length is always enough. -/
def subPatAllF (matchAt : Option Char → Line → Option Nat) :
    Nat → Option Char → Line → Line
  | _, _, [] => []
  | 0, _, l => l
  | fuel + 1, prev, c :: rest =>
      match matchAt prev (c :: rest) with
      | some len =>
          if len = 0 then c :: subPatAllF matchAt fuel (some c) rest
          else ' ' :: subPatAllF matchAt fuel ((c :: rest).get? (len - 1))
            ((c :: rest).drop len)
      | none => c :: subPatAllF matchAt fuel (some c) rest

/-- `re.sub(pattern, " ", text)`. -/
def subPatAll (matchAt : Option Char → Line → Option Nat)
    (prev : Option Char) (l : Line) : Line :=
  subPatAllF matchAt l.length prev l

/-- `str.replace(pat, rep)` loop for a non-empty pattern.  Each step consumes
at least one character, so a fuel of the input length is always enough. -/
def replaceAllGoF (p : Char) (ps : List Char) (rep : Line) : Nat → Line → Line
  | _, [] => []
  | 0, l => l
  | fuel + 1, c :: rest =>
      if List.isPrefixOf (p :: ps) (c :: rest) then
        rep ++ replaceAllGoF p ps rep fuel (rest.drop ps.length)
      else c :: replaceAllGoF p ps rep fuel rest

/-- `str.replace(pat, rep)`. -/
def replaceAll (pat rep : Line) (l : Line) : Line :=
  match pat with
  | [] => l
  | p :: ps => replaceAllGoF p ps rep l.length l

/-- `" ".join(fragments)`. -/
def joinFragments : List Line → Line
  | [] => []
  | [x] => x
  | x :: rest => x ++ ' ' :: joinFragments rest

/-- `_normalise_team_name`: join fragments, blank out date/time tokens,
strip `descansa` markers and `Campo` labels, collapse whitespace, strip
separator punctuation. -/
def normalise_team_name (fragments : List Line) : Line :=
  let text0 := joinFragments fragments
  let text1 := subPatAll matchDateAt none text0
  let text2 := subPatAll matchTimeAt none text1
  let text3 :=
    if startsWithL (text2.map pyLower) (("descansa").toList) then
      if text2.contains ' ' then (text2.dropWhile (fun c => ¬ c = ' ')).drop 1
      else []
    else text2
  let text4 :=
    if List.isSuffixOf ((" descansa").toList) (text3.map pyLower) then
      text3.take (text3.length - 9)
    else text3
  let text5 := replaceAll (("Campo:").toList) [' '] text4
  let text6 := replaceAll (("Campo").toList) [' '] text5
  let text7 := collapseSpaces text6
  pyStripChars [' ', '-', ',', ':'] text7

/-- `_is_team_fragment`. -/
def is_team_fragment (line : Line) : Bool :=
  let lower := line.map pyLower
  if metadataPrefixList.any (fun p => startsWithL lower p) then false
  else if (scoreOnlyMatch line).isSome then false
  else
    let cleaned := normalise_team_name [line]
    if cleaned.isEmpty then false
    else cleaned.any isPyAlpha

/-- `_normalise_whitespace`: replace the exotic spaces, strip, collapse. -/
def normalise_whitespace (text : Line) : Line :=
  collapseSpaces (pyStrip (text.map (fun c =>
    if c = ' ' ∨ c = ' ' ∨ c = ' ' then ' ' else c)))

/-- `strptime(s, "%d-%m-%Y")` together with `datetime`'s calendar
validation. -/
def parse_dmY (s : Line) : Option Date :=
  match parseDay s with
  | none => none
  | some (d, rest1) =>
      match rest1 with
      | '-' :: rest2 =>
          match parseMonth rest2 with
          | none => none
          | some (m, rest3) =>
              match rest3 with
              | '-' :: rest4 =>
                  match parseYear4 rest4 with
                  | none => none
                  | some (y, rest5) =>
                      if rest5 = [] ∧ 1 ≤ y ∧ 1 ≤ d ∧ d ≤ daysInMonth y m then
                        some { year := y, month := m, day := d }
                      else none
              | _ => none
      | _ => none

/-- The regex fragment for `%y`: exactly two digits, resolved through the
POSIX pivot (00-68 means 2000-2068, 69-99 means 1969-1999). -/
def parseYear2 : Line → Option (Nat × Line)
  | a :: b :: rest =>
      if isPyDigit a ∧ isPyDigit b then
        some (natOfDigitChars [a, b], rest)
      else none
  | _ => none

/-- `strptime(s, "%d-%m-%y")` with the two-digit-year pivot and calendar
validation. -/
def parse_dmy (s : Line) : Option Date :=
  match parseDay s with
  | none => none
  | some (d, rest1) =>
      match rest1 with
      | '-' :: rest2 =>
          match parseMonth rest2 with
          | none => none
          | some (m, rest3) =>
              match rest3 with
              | '-' :: rest4 =>
                  match parseYear2 rest4 with
                  | none => none
                  | some (y2, rest5) =>
                      let y := if y2 ≤ 68 then 2000 + y2 else 1900 + y2
                      if rest5 = [] ∧ 1 ≤ d ∧ d ≤ daysInMonth y m then
                        some { year := y, month := m, day := d }
                      else none
              | _ => none
      | _ => none

/-- `_normalise_date`: strip, slash-to-hyphen, try the four-digit-year
pattern then the two-digit-year pattern, emit ISO, else return the
normalized text unchanged. -/
def normalise_date (raw : Line) : Line :=
  let cleaned := pyStrip raw
  if cleaned.isEmpty then cleaned
  else
    let normalized := cleaned.map (fun c => if c = '/' then '-' else c)
    match parse_dmY normalized with
    | some d => d.isoformat
    | none =>
        match parse_dmy normalized with
        | some d => d.isoformat
        | none => normalized

/-- The mutable locals of `_extract_fixtures`, as one state record. -/
structure ExtractState where
  fixtures : List MatchFixture
  teamBuffer : List Line
  pendingHome : Option Line
  pendingAway : Option Line
  pendingScores : Option (Int × Int)
  pendingDate : Option Line
  pendingTime : Option Line
  awaitingAway : Bool
deriving Repr

/-- The initial state of `_extract_fixtures`. -/
def initState : ExtractState :=
  { fixtures := [], teamBuffer := [], pendingHome := none, pendingAway := none,
    pendingScores := none, pendingDate := none, pendingTime := none,
    awaitingAway := false }

/-- `finalize_fixture`. -/
def finalize_fixture (st : ExtractState) : ExtractState :=
  match st.pendingHome, st.pendingAway with
  | some home, some away =>
      { st with
        fixtures := st.fixtures ++
          [{ home_team := home
             away_team := some away
             home_score := st.pendingScores.map (fun p => p.1)
             away_score := st.pendingScores.map (fun p => p.2)
             is_bye := false
             date := st.pendingDate
             time := st.pendingTime }]
        pendingHome := none
        pendingAway := none
        pendingScores := none
        pendingDate := none
        pendingTime := none
        awaitingAway := false }
  | _, _ => st

/-- `consume_team_buffer`. -/
def consume_team_buffer (onScoreLine : Bool) (st : ExtractState) : ExtractState :=
  if st.teamBuffer.isEmpty then st
  else
    let fragments := st.teamBuffer
    let st := { st with teamBuffer := [] }
    let joined := (joinFragments fragments).map pyLower
    if containsSub joined (("descansa").toList) then
      let team_name := normalise_team_name fragments
      let fixtures :=
        if team_name.isEmpty then st.fixtures
        else st.fixtures ++
          [{ home_team := team_name
             away_team := none
             home_score := none
             away_score := none
             is_bye := true
             date := none
             time := none }]
      { st with
        fixtures := fixtures
        pendingHome := none
        pendingAway := none
        pendingScores := none
        pendingDate := none
        pendingTime := none
        awaitingAway := false }
    else if onScoreLine ∧ st.pendingHome = none ∧ 2 ≤ fragments.length then
      let home_name := normalise_team_name (fragments.take (fragments.length - 1))
      let away_name := normalise_team_name [fragments.getLastD []]
      let st := if home_name.isEmpty then st else { st with pendingHome := some home_name }
      if away_name.isEmpty then { st with awaitingAway := true }
      else { st with pendingAway := some away_name, awaitingAway := false }
    else
      let name := normalise_team_name fragments
      if name.isEmpty then st
      else if st.pendingHome = none then
        { st with
          pendingHome := some name
          awaitingAway := st.awaitingAway ∨ onScoreLine }
      else if st.pendingAway = none ∨ st.awaitingAway then
        { st with pendingAway := some name, awaitingAway := false }
      else
        let st := finalize_fixture st
        { st with
          pendingHome := some name
          pendingAway := none
          pendingScores := none
          pendingDate := none
          pendingTime := none
          awaitingAway := onScoreLine }

/-- The body of the `for raw_line in lines` loop of `_extract_fixtures`. -/
def process_line (st : ExtractState) (raw_line : Line) : ExtractState :=
  let line := normalise_whitespace raw_line
  if line.isEmpty then st
  else
    let lower_line := line.map pyLower
    if startsWithL lower_line (("jornada").toList) then st
    else if headerPrefixList.any (fun p => startsWithL lower_line p) then st
    else
      let st :=
        match searchDate line with
        | some d => { st with pendingDate := some (normalise_date d) }
        | none => st
      let st :=
        match searchTime line with
        | some t => { st with pendingTime := some t }
        | none => st
      match inlineResultMatch line with
      | some (home, hs, as0, away) =>
          let st := finalize_fixture (consume_team_buffer false st)
          let home_team := normalise_team_name [home]
          let away_team := normalise_team_name [away]
          { st with
            fixtures := st.fixtures ++
              [{ home_team := home_team
                 away_team := some away_team
                 home_score := some (hs : Int)
                 away_score := some (as0 : Int)
                 is_bye := false
                 date := st.pendingDate
                 time := st.pendingTime }]
            pendingHome := none
            pendingAway := none
            pendingScores := none
            pendingDate := none
            pendingTime := none }
      | none =>
      match teamTrailingScoreMatch line with
      | some (team, hs, as0) =>
          let st := consume_team_buffer false st
          let team_name := normalise_team_name [team]
          if team_name.isEmpty then st
          else
            let st :=
              if st.pendingHome = none then { st with pendingHome := some team_name }
              else if st.pendingAway = none then { st with pendingAway := some team_name }
              else
                let st := finalize_fixture st
                { st with pendingHome := some team_name, pendingAway := none }
            { st with
              pendingScores := some ((hs : Int), (as0 : Int))
              awaitingAway := false }
      | none =>
      if containsSub lower_line (("descansa").toList) then
        consume_team_buffer false { st with teamBuffer := st.teamBuffer ++ [line] }
      else
      match scoreOnlyMatch line with
      | some (hs, as0) =>
          let st := consume_team_buffer true st
          if st.pendingHome = none ∧ st.pendingAway = none then st
          else
            { st with
              pendingScores := some ((hs : Int), (as0 : Int))
              awaitingAway := st.pendingAway = none }
      | none =>
      if is_team_fragment line then
        let st :=
          if st.pendingHome ≠ none ∧ st.pendingAway ≠ none ∧ ¬ st.awaitingAway then
            finalize_fixture st
          else st
        { st with teamBuffer := st.teamBuffer ++ [line] }
      else
        finalize_fixture (consume_team_buffer false st)

/-- `_extract_fixtures`. -/
def extract_fixtures (lines : List Line) : List MatchFixture :=
  (finalize_fixture (consume_team_buffer false (lines.foldl process_line initState))).fixtures

/-- The bye invariant of C5 on a single fixture. -/
def byeOk (f : MatchFixture) : Prop :=
  f.is_bye = true → f.away_team = none ∧ f.home_score = none ∧ f.away_score = none

/-- The invariant carried through the extraction loop. -/
def StOk (st : ExtractState) : Prop := ∀ f ∈ st.fixtures, byeOk f

/-- A serialized fixture dictionary satisfying the bye invariant at the
dictionary level. -/
def FixtureDictByeOk (d : FixtureDict) : Prop :=
  d.isBye = true → d.awayTeam = none ∧ d.homeScore = none ∧ d.awayScore = none

end MatchdayPdf

namespace TopScorers

open RTF Models

/-- `top_scorers_pdf_parser._goals_value`: the sortable goal value, `-1` when
`goals_total` is absent. -/
def goals_value (e : TopScorerEntry) : Int := e.goals_total.getD (-1)

/-- The Excel parser's sort value `item[1].goals_total or -1`: Python's `or`
falls through to `-1` both when `goals_total` is `None` and when it is the
falsy integer `0`. -/
def excel_goals_value (e : TopScorerEntry) : Int :=
  match e.goals_total with
  | none => -1
  | some g => if g = 0 then -1 else g

/-- Order on indexed entries induced by the Python sort key tuple
`(-value, index)` for a given value function: ascending key tuples, i.e.
descending values with the original index breaking ties. -/
def keyOrder (k : TopScorerEntry → Int) (a b : Nat × TopScorerEntry) : Prop :=
  k b.2 < k a.2 ∨ (k a.2 = k b.2 ∧ a.1 ≤ b.1)

instance keyOrder.instDecidableRel (k : TopScorerEntry → Int) :
    DecidableRel (keyOrder k) := fun a b => by
  unfold keyOrder
  infer_instance

/-- `indexed_entries.sort(key=lambda item: (-_goals_value(item[1]), item[0]))`
of `TopScorersPdfParser.parse`, keeping the indexes. -/
def sortIndexedPdf (entries : List TopScorerEntry) :
    List (Nat × TopScorerEntry) :=
  entries.enum.insertionSort (keyOrder goals_value)

/-- `sorted_entries = [entry for _, entry in indexed_entries]` of
`TopScorersPdfParser.parse`. -/
def sortScorersPdf (entries : List TopScorerEntry) : List TopScorerEntry :=
  (sortIndexedPdf entries).map Prod.snd

/-- `indexed.sort(key=lambda item: (-(item[1].goals_total or -1), item[0]))`
of `TopScorersExcelParser.parse`, keeping the indexes. -/
def sortIndexedExcel (entries : List TopScorerEntry) :
    List (Nat × TopScorerEntry) :=
  entries.enum.insertionSort (keyOrder excel_goals_value)

/-- `ordered = [entry for _, entry in indexed]` of
`TopScorersExcelParser.parse`. -/
def sortScorersExcel (entries : List TopScorerEntry) : List TopScorerEntry :=
  (sortIndexedExcel entries).map Prod.snd

/-- A scorer entry with no goals figure. -/
def entryNoGoals : TopScorerEntry :=
  { player := ("A").toList, team := none, group := none,
    matches_played := none, goals_total := none }

/-- A scorer entry with a goals figure of zero. -/
def entryZeroGoals : TopScorerEntry :=
  { player := ("B").toList, team := none, group := none,
    matches_played := none, goals_total := some 0 }

end TopScorers

namespace RealTajo

open RTF

/-- `RealTajoKit` of `real_tajo_calendar.py`. -/
structure RealTajoKit where
  shirt : Option Line := none
  shorts : Option Line := none
  socks : Option Line := none
  shirt_type : Option Line := none
  shorts_type : Option Line := none
  socks_type : Option Line := none
deriving Repr, DecidableEq

/-- `RealTajoTeamInfo` of `real_tajo_calendar.py`. -/
structure RealTajoTeamInfo where
  name : Line
  contact_name : Option Line := none
  phone : Option Line := none
  address : Option Line := none
  first_kit : RealTajoKit := {}
  second_kit : RealTajoKit := {}
deriving Repr, DecidableEq

/-- The text after the first occurrence of `sep`, `none` when `sep` does not
occur: the `[1]` element of `s.split(sep, maxsplit=1)` when the split found
the separator. -/
def afterSub (sep : Line) : Line → Option Line
  | [] => if List.isPrefixOf sep ([] : Line) then some [] else none
  | c :: rest =>
      if List.isPrefixOf sep (c :: rest) then
        some ((c :: rest).drop sep.length)
      else afterSub sep rest

/-- Python `value or None` for a stripped string. -/
def orNone (l : Line) : Option Line := if l.isEmpty then none else some l

/-- The stripped first group of `re.search` for quote `Contacto:`, optional
whitespace, then one or more characters — `none` when the pattern does not
match or the stripped group is empty. -/
def contact_from_search (line : Line) : Option Line :=
  match afterSub (("Contacto:").toList) line with
  | none => none
  | some tail => if tail.isEmpty then none else orNone (pyStrip tail)

/-- The tail of `_extract_team_info`'s loop body: the two kit sections and
the returned record. -/
def finish_team_info (kitSection : List Line → Nat → RealTajoKit × Nat)
    (lines : List Line) (lookahead : Nat)
    (contact_name phone address : Option Line) : RealTajoTeamInfo :=
  let fk := kitSection lines lookahead
  let sk := kitSection lines (lookahead + fk.2)
  { name := ("REAL TAJO").toList
    contact_name := contact_name
    phone := phone
    address := address
    first_kit := fk.1
    second_kit := sk.1 }

/-- One iteration of `_extract_team_info`'s loop, parameterised by the kit
section reader `_parse_kit_section`: `none` when the loop `continue`s past
this line, otherwise the returned record, or the `IndexError` the phone step
raises when the line contains `Teléfono` but splitting on `Teléfono:` finds
no separator. -/
def extract_team_info_at (kitSection : List Line → Nat → RealTajoKit × Nat)
    (lines : List Line) (index : Nat) (line : Line) :
    Option (Except String RealTajoTeamInfo) :=
  if !(startsWithL (line.map pyUpper) (("REAL TAJO").toList)) then none
  else
    let has_contact_marker := containsSub line (("Contacto").toList)
    let next_line := (lines.get? (index + 1)).getD []
    if !has_contact_marker && !(containsSub next_line (("Contacto").toList))
    then none
    else
      let contact0 := contact_from_search line
      let la0 := index + 1
      let step1 : Option Line × Nat :=
        match contact0 with
        | some v => (some v, la0)
        | none =>
            match lines.get? la0 with
            | some contact_line =>
                if containsSub contact_line (("Contacto:").toList) then
                  match afterSub (("Contacto:").toList) contact_line with
                  | some tail => (orNone (pyStrip tail), la0 + 1)
                  | none => (none, la0)
                else (none, la0)
            | none => (none, la0)
      let step2 : Option Line × Nat :=
        match lines.get? step1.2 with
        | some potential_address =>
            if !(startsWithL potential_address (("Teléfono").toList)) then
              (some potential_address, step1.2 + 1)
            else (none, step1.2)
        | none => (none, step1.2)
      some
        (match lines.get? step2.2 with
         | some cur =>
             if containsSub cur (("Teléfono").toList) then
               match afterSub (("Teléfono:").toList) cur with
               | some tail =>
                   Except.ok (finish_team_info kitSection lines (step2.2 + 1)
                     step1.1 (orNone (pyStrip tail)) step2.1)
               | none => Except.error "IndexError: list index out of range"
             else
               Except.ok (finish_team_info kitSection lines step2.2
                 step1.1 none step2.1)
         | none =>
             Except.ok (finish_team_info kitSection lines step2.2
               step1.1 none step2.1))

/-- The indexed loop of `_extract_team_info`. -/
def extract_team_info_loop (kitSection : List Line → Nat → RealTajoKit × Nat)
    (lines : List Line) :
    List (Nat × Line) → Except String (Option RealTajoTeamInfo)
  | [] => Except.ok none
  | (index, line) :: rest =>
      match extract_team_info_at kitSection lines index line with
      | none => extract_team_info_loop kitSection lines rest
      | some (Except.error e) => Except.error e
      | some (Except.ok info) => Except.ok (some info)

/-- `_extract_team_info`, parameterised by the kit section reader. -/
def extract_team_info (kitSection : List Line → Nat → RealTajoKit × Nat)
    (lines : List Line) : Except String (Option RealTajoTeamInfo) :=
  extract_team_info_loop kitSection lines lines.enum

/-- `RealTajoCalendar` of `real_tajo_calendar.py`, with the match record type
abstract. -/
structure RealTajoCalendarOf (M : Type) where
  competition : Option Line
  season : Option Line
  matches_ : List M
  team_info : RealTajoTeamInfo

/-- `RealTajoCalendarPdfParser.parse` on the document's lines, parameterised
by the other sub-extractors, which are total functions in the source: the
team-info extraction runs before the zero-fixtures check, so an `IndexError`
it raises propagates regardless of the fixtures found. -/
def parse (M : Type)
    (extractCompetitionAndSeason : List Line → Option Line × Option Line)
    (extractTeamNames : List Line → List Line)
    (extractMatches : List Line → List Line → List M)
    (kitSection : List Line → Nat → RealTajoKit × Nat)
    (lines : List Line) : Except String (RealTajoCalendarOf M) :=
  let cs := extractCompetitionAndSeason lines
  let team_names := extractTeamNames lines
  let matches_found := extractMatches lines team_names
  match extract_team_info kitSection lines with
  | Except.error e => Except.error e
  | Except.ok team_info =>
      if matches_found.isEmpty then
        Except.error
          "No Real Tajo fixtures were found in the provided calendar."
      else
        Except.ok
          { competition := cs.1
            season := cs.2
            matches_ := matches_found
            team_info := team_info.getD { name := ("REAL TAJO").toList } }

end RealTajo

namespace ClassificationExtractor

open RTF

/-- Unfolding of the consistency oracle into its arithmetic content. -/
theorem stats_are_consistent_spec (v : List Int)
    (h : stats_are_consistent v = true) :
    9 ≤ v.length ∧
      v.getD 1 0 = v.getD 2 0 + v.getD 3 0 + v.getD 4 0 ∧
      v.getD 0 0 = v.getD 2 0 * 3 + v.getD 3 0 - v.getD (v.length - 1) 0 ∧
      0 ≤ v.getD 0 0 ∧ 0 ≤ v.getD (v.length - 2) 0 ∧
      0 ≤ v.getD (v.length - 1) 0 := by
  simp only [stats_are_consistent] at h
  split_ifs at h with h1 h2 h3 h4 h5
  all_goals try simp at h
  simp only [STAT_KEYS, List.length_cons, List.length_nil, not_lt] at h1
  push_neg at h2 h3 h4
  rcases not_or.mp h5 with ⟨h5a, h5b⟩
  push_neg at h5a h5b
  refine ⟨by simpa using h1, by omega, by omega, by omega, h5a, h5b⟩

/-- Soundness of the candidate-width loop, assuming soundness of the
recursion on the remaining rules. -/
theorem segment_step_sound (digits : List Nat) (rest : List (List Nat))
    (ih : ∀ pos acc v, segment_next digits rest pos acc = some v →
      stats_are_consistent v = true ∧ v.length = acc.length + rest.length) :
    ∀ (more : List Nat) (pos : Nat) (acc : List Int) (v : List Int),
      try_widths digits (segment_next digits rest) more pos acc = some v →
      stats_are_consistent v = true ∧ v.length = acc.length + rest.length + 1 := by
  intro more
  induction more with
  | nil => intro pos acc v h; simp [try_widths] at h
  | cons len more ihm =>
      intro pos acc v h
      rw [try_widths] at h
      split_ifs at h with hb hv
      · exact ihm pos acc v h
      · cases hs : segment_next digits rest (pos + len)
            (acc ++ [valueOfDigits ((digits.drop pos).take len)]) with
        | some s =>
            rw [hs] at h
            obtain ⟨hc, hl⟩ := ih _ _ _ hs
            cases h
            refine ⟨hc, ?_⟩
            simp only [List.length_append, List.length_cons, List.length_nil] at hl
            omega
        | none => rw [hs] at h; exact ihm pos acc v h
      · exact ihm pos acc v h

/-- Any value list returned by the backtracking passes the consistency oracle
and has one entry per remaining rule. -/
theorem segment_next_sound (digits : List Nat) :
    ∀ (rules : List (List Nat)) (pos : Nat) (acc : List Int) (v : List Int),
      segment_next digits rules pos acc = some v →
      stats_are_consistent v = true ∧ v.length = acc.length + rules.length := by
  intro rules
  induction rules with
  | nil =>
      intro pos acc v h
      rw [segment_next] at h
      split_ifs at h with hc
      cases h
      exact ⟨hc.2, by simp⟩
  | cons lengths rest ihr =>
      intro pos acc v h
      rw [segment_next] at h
      split_ifs at h with hp
      obtain ⟨hc, hl⟩ := segment_step_sound digits rest ihr lengths pos acc v h
      exact ⟨hc, by simp only [List.length_cons]; omega⟩

/-- C1: every statistics vector accepted by the decoder's consistency check —
by the first-attempt token decode or by the backtracking segmentation —
consists of exactly nine integers (points, played, wins, draws, losses,
goals_for, goals_against, last_points, sanction_points in that order)
satisfying played = wins + draws + losses and
points = wins * 3 + draws - sanction_points, with points, last_points and
sanction_points all non-negative. -/
theorem C1_decoded_stats_consistent (tokens : List (List Nat)) (v : List Int)
    (h : first_attempt_decode tokens = some v ∨
      segment_digits_sequence tokens.flatten = some v) :
    v.length = 9 ∧
      v.getD 1 0 = v.getD 2 0 + v.getD 3 0 + v.getD 4 0 ∧
      v.getD 0 0 = v.getD 2 0 * 3 + v.getD 3 0 - v.getD 8 0 ∧
      0 ≤ v.getD 0 0 ∧ 0 ≤ v.getD 7 0 ∧ 0 ≤ v.getD 8 0 := by
  have hcons : stats_are_consistent v = true ∧ v.length = 9 := by
    rcases h with h | h
    · unfold first_attempt_decode at h
      split_ifs at h with hc
      cases h
      refine ⟨hc.2, ?_⟩
      have h9 : (9 : Nat) ≤ tokens.length := by simpa [STAT_KEYS] using hc.1
      simp [STAT_KEYS, List.length_take]
      omega
    · unfold segment_digits_sequence at h
      split_ifs at h with hd
      obtain ⟨hc, hl⟩ := segment_next_sound _ _ _ _ _ h
      exact ⟨hc, by simpa [STAT_LENGTH_RULES] using hl⟩
  obtain ⟨hc, h9⟩ := hcons
  obtain ⟨_, hA, hB, hC, hD, hE⟩ := stats_are_consistent_spec v hc
  rw [h9] at hB hD hE
  exact ⟨h9, hA, by simpa using hB, hC, by simpa using hD, by simpa using hE⟩

/-- Witness for `C1_decoded_stats_consistent` at the spec's example row. -/
theorem C1_decoded_stats_consistent_witness :
    (first_attempt_decode [[3], [1], [1], [0], [0], [2], [1], [3], [0]] =
        some [3, 1, 1, 0, 0, 2, 1, 3, 0] ∨
      segment_digits_sequence
          ([[3], [1], [1], [0], [0], [2], [1], [3], [0]] : List (List Nat)).flatten =
        some [3, 1, 1, 0, 0, 2, 1, 3, 0]) ∧
      (([3, 1, 1, 0, 0, 2, 1, 3, 0] : List Int).length = 9 ∧
        ([3, 1, 1, 0, 0, 2, 1, 3, 0] : List Int).getD 1 0 =
          ([3, 1, 1, 0, 0, 2, 1, 3, 0] : List Int).getD 2 0 +
            ([3, 1, 1, 0, 0, 2, 1, 3, 0] : List Int).getD 3 0 +
            ([3, 1, 1, 0, 0, 2, 1, 3, 0] : List Int).getD 4 0 ∧
        ([3, 1, 1, 0, 0, 2, 1, 3, 0] : List Int).getD 0 0 =
          ([3, 1, 1, 0, 0, 2, 1, 3, 0] : List Int).getD 2 0 * 3 +
            ([3, 1, 1, 0, 0, 2, 1, 3, 0] : List Int).getD 3 0 -
            ([3, 1, 1, 0, 0, 2, 1, 3, 0] : List Int).getD 8 0 ∧
        0 ≤ ([3, 1, 1, 0, 0, 2, 1, 3, 0] : List Int).getD 0 0 ∧
        0 ≤ ([3, 1, 1, 0, 0, 2, 1, 3, 0] : List Int).getD 7 0 ∧
        0 ≤ ([3, 1, 1, 0, 0, 2, 1, 3, 0] : List Int).getD 8 0) :=
  ⟨Or.inl (by decide),
    C1_decoded_stats_consistent [[3], [1], [1], [0], [0], [2], [1], [3], [0]]
      [3, 1, 1, 0, 0, 2, 1, 3, 0] (Or.inl (by decide))⟩

theorem rulesOK_STAT_LENGTH_RULES : rulesOK STAT_LENGTH_RULES := by
  unfold rulesOK STAT_LENGTH_RULES
  decide

theorem ValidFrom.length_eq {digits rules pos acc ws}
    (h : ValidFrom digits rules pos acc ws) : ws.length = rules.length := by
  induction h with
  | nil _ _ => rfl
  | cons _ _ _ _ ih => simpa using ih

theorem ValidFrom.sum_eq {digits rules pos acc ws}
    (h : ValidFrom digits rules pos acc ws) : pos + ws.sum = digits.length := by
  induction h with
  | nil hp _ => simpa using hp
  | cons _ _ _ _ ih => simp only [List.sum_cons]; omega

theorem ValidFrom.widths_pos {digits rules pos acc ws}
    (h : ValidFrom digits rules pos acc ws) (hr : rulesOK rules) :
    ∀ w ∈ ws, 1 ≤ w := by
  induction h with
  | nil _ _ => intro w hw; cases hw
  | cons hmem _ _ _ ih =>
      intro u hu
      rcases List.mem_cons.mp hu with rfl | hu
      · exact ((hr _ (List.mem_cons_self _ _)).1 _ hmem)
      · exact ih (fun r hr2 => hr r (List.mem_cons_of_mem _ hr2)) u hu

theorem ValidFrom.final_consistent {digits rules pos acc ws}
    (h : ValidFrom digits rules pos acc ws) :
    stats_are_consistent (acc ++ segmentValues digits pos ws) = true := by
  induction h with
  | nil _ hc => simpa [segmentValues] using hc
  | cons _ _ _ _ ih => simpa [segmentValues, List.append_assoc] using ih

theorem ValidFrom.prefixes_valid {digits rules pos acc ws}
    (h : ValidFrom digits rules pos acc ws)
    (hacc : ∀ k, interim_stats_are_valid (acc.take k) = true) :
    ∀ k, interim_stats_are_valid ((acc ++ segmentValues digits pos ws).take k) = true := by
  induction h with
  | nil _ _ => simpa [segmentValues] using hacc
  | @cons lengths rest p a w ws2 _ _ hval _ ih =>
      have hacc2 : ∀ k,
          interim_stats_are_valid
            ((a ++ [valueOfDigits ((digits.drop p).take w)]).take k) = true := by
        intro k
        by_cases hk : k ≤ a.length
        · rw [List.take_append_of_le_length hk]
          exact hacc k
        · rw [List.take_of_length_le (by simp; omega)]
          exact hval
      intro k
      have := ih hacc2 k
      simpa [segmentValues, List.append_assoc] using this

theorem validFrom_cons_iff_stepValid {digits lengths rest pos acc ws} :
    ValidFrom digits (lengths :: rest) pos acc ws ↔
      StepValid digits rest lengths pos acc ws := by
  constructor
  · intro h
    cases h with
    | cons hmem hle hval hrec => exact ⟨_, _, rfl, hmem, hle, hval, hrec⟩
  · rintro ⟨w, ws2, rfl, hmem, hle, hval, hrec⟩
    exact ValidFrom.cons hmem hle hval hrec

theorem length_le_sum_of_pos :
    ∀ ws : List Nat, (∀ w ∈ ws, 1 ≤ w) → ws.length ≤ ws.sum := by
  intro ws
  induction ws with
  | nil => intro _; simp
  | cons w ws ih =>
      intro h
      have h1 := h w (List.mem_cons_self _ _)
      have h2 := ih (fun u hu => h u (List.mem_cons_of_mem _ hu))
      simp only [List.length_cons, List.sum_cons]
      omega

/-- The candidate-width loop respects `NextSpec` for the remaining rules:
it finds the first (widest-candidate-first) valid completion whose leading
width is among the still-untried candidates, or correctly reports none. -/
theorem step_spec (digits : List Nat) (rest : List (List Nat))
    (ih : NextSpec digits rest) :
    ∀ more : List Nat, List.Pairwise (· > ·) more →
    ∀ pos acc,
      (∀ v, try_widths digits (segment_next digits rest) more pos acc = some v →
        ∃ ws, StepValid digits rest more pos acc ws ∧
          v = acc ++ segmentValues digits pos ws ∧
          (∀ ws', StepValid digits rest more pos acc ws' →
            ws' = ws ∨ List.Lex (· < ·) ws' ws)) ∧
      (try_widths digits (segment_next digits rest) more pos acc = none →
        ∀ ws, ¬ StepValid digits rest more pos acc ws) := by
  intro more
  induction more with
  | nil =>
      intro _ pos acc
      constructor
      · intro v h; simp [try_widths] at h
      · intro _ ws hws
        rcases hws with ⟨w, ws2, rfl, hmem, _⟩
        cases hmem
  | cons len more ihm =>
      intro hpw pos acc
      have hpwt : List.Pairwise (· > ·) more := List.Pairwise.of_cons hpw
      have hgt : ∀ w ∈ more, w < len := (List.pairwise_cons.mp hpw).1
      have widen : ∀ ws, StepValid digits rest more pos acc ws →
          StepValid digits rest (len :: more) pos acc ws := by
        rintro ws ⟨w, ws2, rfl, hmem, hle, hval, hrec⟩
        exact ⟨w, ws2, rfl, List.mem_cons_of_mem _ hmem, hle, hval, hrec⟩
      constructor
      · intro v h
        rw [try_widths] at h
        split_ifs at h with hb hv
        · -- candidate width does not fit in the remaining run
          obtain ⟨ws, hsv, hveq, hord⟩ := (ihm hpwt pos acc).1 v h
          refine ⟨ws, widen ws hsv, hveq, ?_⟩
          rintro ws' ⟨w', ws2', rfl, hmem', hle', hval', hrec'⟩
          rcases List.mem_cons.mp hmem' with rfl | hmem'
          · omega
          · exact hord _ ⟨w', ws2', rfl, hmem', hle', hval', hrec'⟩
        · -- candidate fits and the extended prefix is valid
          cases hs : segment_next digits rest (pos + len)
              (acc ++ [valueOfDigits ((digits.drop pos).take len)]) with
          | some s =>
              rw [hs] at h
              cases h
              obtain ⟨ws2, hv2, hseq, hord2⟩ :=
                (ih (pos + len) (acc ++ [valueOfDigits ((digits.drop pos).take len)])).1 _ hs
              refine ⟨len :: ws2,
                ⟨len, ws2, rfl, List.mem_cons_self _ _, by omega, hv, hv2⟩, ?_, ?_⟩
              · rw [hseq]
                simp [segmentValues, List.append_assoc]
              · rintro ws' ⟨w', ws2', rfl, hmem', hle', hval', hrec'⟩
                rcases List.mem_cons.mp hmem' with rfl | hmem'
                · rcases hord2 ws2' hrec' with rfl | hlex
                  · exact Or.inl rfl
                  · exact Or.inr (List.Lex.cons hlex)
                · exact Or.inr (List.Lex.rel (hgt _ hmem'))
          | none =>
              rw [hs] at h
              obtain ⟨ws, hsv, hveq, hord⟩ := (ihm hpwt pos acc).1 v h
              refine ⟨ws, widen ws hsv, hveq, ?_⟩
              rintro ws' ⟨w', ws2', rfl, hmem', hle', hval', hrec'⟩
              rcases List.mem_cons.mp hmem' with rfl | hmem'
              · exact absurd hrec' ((ih _ _).2 hs ws2')
              · exact hord _ ⟨w', ws2', rfl, hmem', hle', hval', hrec'⟩
        · -- extended prefix fails the partial-validity predicate
          obtain ⟨ws, hsv, hveq, hord⟩ := (ihm hpwt pos acc).1 v h
          refine ⟨ws, widen ws hsv, hveq, ?_⟩
          rintro ws' ⟨w', ws2', rfl, hmem', hle', hval', hrec'⟩
          rcases List.mem_cons.mp hmem' with rfl | hmem'
          · exact absurd hval' hv
          · exact hord _ ⟨w', ws2', rfl, hmem', hle', hval', hrec'⟩
      · intro h ws hws
        rcases hws with ⟨w', ws2', rfl, hmem', hle', hval', hrec'⟩
        rw [try_widths] at h
        split_ifs at h with hb hv
        · rcases List.mem_cons.mp hmem' with rfl | hmem'
          · omega
          · exact (ihm hpwt pos acc).2 h _ ⟨w', ws2', rfl, hmem', hle', hval', hrec'⟩
        · cases hs : segment_next digits rest (pos + len)
              (acc ++ [valueOfDigits ((digits.drop pos).take len)]) with
          | some s => rw [hs] at h; cases h
          | none =>
              rw [hs] at h
              rcases List.mem_cons.mp hmem' with rfl | hmem'
              · exact absurd hrec' ((ih _ _).2 hs ws2')
              · exact (ihm hpwt pos acc).2 h _ ⟨w', ws2', rfl, hmem', hle', hval', hrec'⟩
        · rcases List.mem_cons.mp hmem' with rfl | hmem'
          · exact absurd hval' hv
          · exact (ihm hpwt pos acc).2 h _ ⟨w', ws2', rfl, hmem', hle', hval', hrec'⟩

/-- Full specification of the backtracking search: on success it returns the
first valid segmentation in widest-first depth-first order; on failure no
valid segmentation exists. -/
theorem next_spec (digits : List Nat) :
    ∀ rules : List (List Nat), rulesOK rules → NextSpec digits rules := by
  intro rules
  induction rules with
  | nil =>
      intro _ pos acc
      constructor
      · intro v h
        rw [segment_next] at h
        split_ifs at h with hc
        cases h
        refine ⟨[], ValidFrom.nil hc.1 hc.2, by simp [segmentValues], ?_⟩
        intro ws' hws'
        cases hws'
        exact Or.inl rfl
      · intro h ws hws
        cases hws with
        | nil hp hcn =>
            rw [segment_next] at h
            rw [if_pos ⟨hp, hcn⟩] at h
            cases h
  | cons lengths rest ihr =>
      intro hr pos acc
      have hrest : rulesOK rest := fun r hmem => hr r (List.mem_cons_of_mem _ hmem)
      have ihn : NextSpec digits rest := ihr hrest
      have hpw : List.Pairwise (· > ·) lengths :=
        (hr lengths (List.mem_cons_self _ _)).2
      constructor
      · intro v h
        rw [segment_next] at h
        split_ifs at h with hp
        obtain ⟨ws, hsv, hveq, hord⟩ :=
          (step_spec digits rest ihn lengths hpw pos acc).1 v h
        refine ⟨ws, validFrom_cons_iff_stepValid.mpr hsv, hveq, ?_⟩
        intro ws' hws'
        exact hord ws' (validFrom_cons_iff_stepValid.mp hws')
      · intro h ws hws
        rw [segment_next] at h
        split_ifs at h with hp
        · have hlen := hws.length_eq
          have hsum := hws.sum_eq
          have hwp := hws.widths_pos hr
          have hls := length_le_sum_of_pos ws hwp
          simp only [List.length_cons] at hlen
          omega
        · exact (step_spec digits rest ihn lengths hpw pos acc).2 h ws
            (validFrom_cons_iff_stepValid.mp hws)

theorem segmentValues_length (digits : List Nat) :
    ∀ (ws : List Nat) (pos : Nat), (segmentValues digits pos ws).length = ws.length := by
  intro ws
  induction ws with
  | nil => intro pos; rfl
  | cons w ws ih => intro pos; simp [segmentValues, ih]

/-- C6: whenever the backtracking digit-run segmentation returns a result, the
result is exactly nine integers cut left-to-right from the whole digit run by
consecutive field widths drawn from the per-position length table (3, 2 or 1
digits for points, 2 or 1 for every other position — packaged in `ValidFrom`,
whose constructors also require every extended prefix to pass the
partial-validity predicate and the complete value list to pass the
consistency oracle), and the width sequence is the first one in widest-first
depth-first order: any other valid segmentation is lexicographically
smaller. -/
theorem C6_segmentation_first_valid (digits : List Nat) (v : List Int)
    (h : segment_digits_sequence digits = some v) :
    ∃ ws : List Nat,
      ValidFrom digits STAT_LENGTH_RULES 0 [] ws ∧
      ws.length = 9 ∧ ws.sum = digits.length ∧
      v = segmentValues digits 0 ws ∧ v.length = 9 ∧
      (∀ k, interim_stats_are_valid (v.take k) = true) ∧
      stats_are_consistent v = true ∧
      (∀ ws', ValidFrom digits STAT_LENGTH_RULES 0 [] ws' →
        ws' = ws ∨ List.Lex (· < ·) ws' ws) := by
  unfold segment_digits_sequence at h
  split_ifs at h with hd
  obtain ⟨ws, hvf, hveq, hord⟩ :=
    (next_spec digits STAT_LENGTH_RULES rulesOK_STAT_LENGTH_RULES 0 []).1 v h
  have hlen := hvf.length_eq
  have hsum := hvf.sum_eq
  have hcons := hvf.final_consistent
  have hpref := hvf.prefixes_valid (by
    intro k
    simp [interim_stats_are_valid])
  have hv9 : v.length = 9 := by
    rw [hveq]
    simp [segmentValues_length]
    simpa [STAT_LENGTH_RULES] using hlen
  refine ⟨ws, hvf, by simpa [STAT_LENGTH_RULES] using hlen, by simpa using hsum,
    by simpa using hveq, hv9, ?_, ?_, hord⟩
  · intro k
    have := hpref k
    rw [hveq]
    simpa using this
  · rw [hveq]
    simpa using hcons

theorem lookup_mem_of_eq_some :
    ∀ (l : List (Char × Char)) (c v : Char), l.lookup c = some v → (c, v) ∈ l := by
  intro l
  induction l with
  | nil => intro c v h; cases h
  | cons p rest ih =>
      intro c v h
      rw [List.lookup] at h
      cases hb : (c == p.1) with
      | true =>
          rw [hb] at h
          cases h
          have hc : c = p.1 := by simpa using hb
          subst hc
          simp
      | false =>
          rw [hb] at h
          exact List.mem_cons_of_mem _ (ih c v h)

theorem lowerTable_props :
    ∀ p ∈ lowerTable, isPySpace p.2 = isPySpace p.1 ∧ (p.2 = ' ' ↔ p.1 = ' ') := by
  decide

theorem pad_missing_statistics_length (values : List Int) (expected : Nat) :
    (pad_missing_statistics values expected).length = expected := by
  unfold pad_missing_statistics
  split_ifs with h
  · simp only [List.length_take]
    omega
  · simp only [List.length_append, List.length_replicate]
    omega

theorem extract_stat_values_length (s : Line) :
    (extract_stat_values s).length = 9 := by
  simp only [extract_stat_values]
  rw [pad_missing_statistics_length]
  rfl

theorem extract_stat_values_no_digits (s : Line) (h : digitRuns s = []) :
    extract_stat_values s = List.replicate 9 0 := by
  simp only [extract_stat_values, h]
  rfl

theorem pad_missing_statistics_short (v : List Int) (hlen : v.length < 9) :
    pad_missing_statistics v 9 = v ++ List.replicate (9 - v.length) (v.getLastD 0) := by
  unfold pad_missing_statistics
  rw [if_neg (by omega)]

theorem statsMapOf_total (v : List Int) (h : v.length = 9) :
    (statsMapOf v).points.isSome = true ∧ (statsMapOf v).played.isSome = true ∧
      (statsMapOf v).wins.isSome = true ∧ (statsMapOf v).draws.isSome = true ∧
      (statsMapOf v).losses.isSome = true ∧ (statsMapOf v).goals_for.isSome = true ∧
      (statsMapOf v).goals_against.isSome = true ∧
      (statsMapOf v).last_points.isSome = true ∧
      (statsMapOf v).sanction_points.isSome = true := by
  have hk : ∀ k, k < 9 → (v.get? k).isSome = true := by
    intro k hk
    rw [List.get?_eq_getElem?]
    rw [List.getElem?_eq_getElem (by omega)]
    rfl
  unfold statsMapOf
  exact ⟨hk 0 (by omega), hk 1 (by omega), hk 2 (by omega), hk 3 (by omega),
    hk 4 (by omega), hk 5 (by omega), hk 6 (by omega), hk 7 (by omega),
    hk 8 (by omega)⟩

theorem parse_row_stats_shape (line : Line) (row : ClassificationRow)
    (h : parse_row line = some row) :
    ∃ s, row.stats = statsMapOf (extract_stat_values s) := by
  simp only [parse_row] at h
  cases hm : row_pattern_match line with
  | none => rw [hm] at h; cases h
  | some pb =>
      obtain ⟨pos, body0⟩ := pb
      rw [hm] at h
      simp only at h
      split_ifs at h with h1 h2
      cases h
      exact ⟨_, rfl⟩

/-- C9: every line accepted by the classification row parser yields a row
whose stats mapping binds each of the nine keys to an integer; the
statistics decoder always returns exactly nine values, a digit-free stats
section decodes to nine zeros, and a short decode is padded by repeating its
last value. -/
theorem C9_row_stats_total (line : Line) (row : ClassificationRow)
    (h : parse_row line = some row) :
    (row.stats.points.isSome = true ∧ row.stats.played.isSome = true ∧
      row.stats.wins.isSome = true ∧ row.stats.draws.isSome = true ∧
      row.stats.losses.isSome = true ∧ row.stats.goals_for.isSome = true ∧
      row.stats.goals_against.isSome = true ∧ row.stats.last_points.isSome = true ∧
      row.stats.sanction_points.isSome = true) ∧
    (∀ s : Line, (extract_stat_values s).length = 9) ∧
    (∀ s : Line, digitRuns s = [] → extract_stat_values s = List.replicate 9 0) ∧
    (∀ v : List Int, v.length < 9 →
      pad_missing_statistics v 9 = v ++ List.replicate (9 - v.length) (v.getLastD 0)) := by
  refine ⟨?_, extract_stat_values_length, extract_stat_values_no_digits,
    pad_missing_statistics_short⟩
  obtain ⟨s, hs⟩ := parse_row_stats_shape line row h
  rw [hs]
  exact statsMapOf_total _ (extract_stat_values_length s)

/-- Witness for `C9_row_stats_total` on the row line `1A 00`. -/
theorem C9_row_stats_total_witness :
    parse_row (("1A 00").toList) =
        some { position := 1, team := ['A'],
               stats := { points := some 0, played := some 0, wins := some 0,
                          draws := some 0, losses := some 0, goals_for := some 0,
                          goals_against := some 0, last_points := some 0,
                          sanction_points := some 0 },
               raw := ("1A 00").toList } ∧
      ∀ row : ClassificationRow,
        parse_row (("1A 00").toList) = some row →
        row.stats.points.isSome = true ∧ row.stats.played.isSome = true ∧
          row.stats.wins.isSome = true ∧ row.stats.draws.isSome = true ∧
          row.stats.losses.isSome = true ∧ row.stats.goals_for.isSome = true ∧
          row.stats.goals_against.isSome = true ∧
          row.stats.last_points.isSome = true ∧
          row.stats.sanction_points.isSome = true :=
  ⟨by decide, fun row hrow => (C9_row_stats_total (("1A 00").toList) row hrow).1⟩

theorem isPySpace_pyLower (c : Char) : isPySpace (pyLower c) = isPySpace c := by
  unfold pyLower
  cases hl : lowerTable.lookup c with
  | none => rfl
  | some v =>
      simp only [Option.getD_some]
      exact (lowerTable_props _ (lookup_mem_of_eq_some lowerTable c v hl)).1

theorem pyLower_eq_space_iff (c : Char) : pyLower c = ' ' ↔ c = ' ' := by
  unfold pyLower
  cases hl : lowerTable.lookup c with
  | none => simp
  | some v =>
      simp only [Option.getD_some]
      exact (lowerTable_props _ (lookup_mem_of_eq_some lowerTable c v hl)).2

theorem collapseSpaces_cons_space_nil {c : Char} {rest : Line}
    (hc : isPySpace c = true) (hr : collapseSpaces rest = []) :
    collapseSpaces (c :: rest) = [' '] := by
  simp [collapseSpaces, hc, hr]

theorem collapseSpaces_cons_space_sp {c : Char} {rest : Line} {tail : Line}
    (hc : isPySpace c = true) (hr : collapseSpaces rest = ' ' :: tail) :
    collapseSpaces (c :: rest) = ' ' :: tail := by
  simp [collapseSpaces, hc, hr]

theorem collapseSpaces_cons_space_nsp {c d : Char} {rest tail : Line}
    (hc : isPySpace c = true) (hr : collapseSpaces rest = d :: tail)
    (hd : ¬ d = ' ') : collapseSpaces (c :: rest) = ' ' :: d :: tail := by
  simp [collapseSpaces, hc, hr, hd]

theorem collapseSpaces_cons_nospace {c : Char} {rest : Line}
    (hc : ¬ isPySpace c = true) :
    collapseSpaces (c :: rest) = c :: collapseSpaces rest := by
  simp [collapseSpaces, hc]

/-- The collapsed form of a line starting with whitespace starts with a
space. -/
theorem collapseSpaces_cons_space_head {c : Char} {rest : Line}
    (hc : isPySpace c = true) :
    ∃ t, collapseSpaces (c :: rest) = ' ' :: t := by
  cases hr : collapseSpaces rest with
  | nil => exact ⟨[], collapseSpaces_cons_space_nil hc hr⟩
  | cons d tail =>
      by_cases hd : d = ' '
      · subst hd; exact ⟨tail, collapseSpaces_cons_space_sp hc hr⟩
      · exact ⟨d :: tail, collapseSpaces_cons_space_nsp hc hr hd⟩

theorem collapseSpaces_map_pyLower (l : Line) :
    (collapseSpaces l).map pyLower = collapseSpaces (l.map pyLower) := by
  induction l with
  | nil => rfl
  | cons c rest ih =>
      by_cases hc : isPySpace c
      · have hc2 : isPySpace (pyLower c) = true := by
          rw [isPySpace_pyLower]; exact hc
        cases hr : collapseSpaces rest with
        | nil =>
            have hr2 : collapseSpaces (rest.map pyLower) = [] := by
              rw [← ih, hr]; rfl
            rw [List.map_cons, collapseSpaces_cons_space_nil hc hr,
              collapseSpaces_cons_space_nil hc2 hr2]
            decide
        | cons d tail =>
            have hr2 : collapseSpaces (rest.map pyLower) =
                pyLower d :: tail.map pyLower := by
              rw [← ih, hr]; rfl
            by_cases hd : d = ' '
            · have hd2 : pyLower d = ' ' := (pyLower_eq_space_iff d).mpr hd
              subst hd
              rw [List.map_cons, collapseSpaces_cons_space_sp hc hr,
                collapseSpaces_cons_space_sp hc2 (by rw [hr2, hd2])]
              simp [hd2]
            · have hd2 : ¬ pyLower d = ' ' :=
                fun hcontra => hd ((pyLower_eq_space_iff d).mp hcontra)
              rw [List.map_cons, collapseSpaces_cons_space_nsp hc hr hd,
                collapseSpaces_cons_space_nsp hc2 hr2 hd2]
              simp
              decide
      · have hc2 : ¬ isPySpace (pyLower c) = true := by
          rw [isPySpace_pyLower]; exact hc
        rw [List.map_cons, collapseSpaces_cons_nospace hc,
          collapseSpaces_cons_nospace hc2, List.map_cons, ih]

theorem pyStrip_map_pyLower (l : Line) :
    (pyStrip l).map pyLower = pyStrip (l.map pyLower) := by
  have hfun : (isPySpace ∘ pyLower) = isPySpace := by
    funext c
    simp [Function.comp, isPySpace_pyLower]
  have hdw : ∀ x : Line,
      (x.map pyLower).dropWhile isPySpace = (x.dropWhile isPySpace).map pyLower := by
    intro x
    rw [List.dropWhile_map, hfun]
  unfold pyStrip
  rw [hdw, ← List.map_reverse, hdw, List.map_reverse]

theorem pyStrip_infix_mono (l : Line) : pyStrip l <:+: l := by
  unfold pyStrip
  have h1 : l.dropWhile isPySpace <:+ l := List.dropWhile_suffix _
  have h2 : (l.dropWhile isPySpace).reverse.dropWhile isPySpace <:+
      (l.dropWhile isPySpace).reverse := List.dropWhile_suffix _
  have h3 : ((l.dropWhile isPySpace).reverse.dropWhile isPySpace).reverse <+:
      l.dropWhile isPySpace := by
    rw [← List.reverse_reverse (l.dropWhile isPySpace)]
    exact List.reverse_prefix.mpr (by rw [List.reverse_reverse]; exact h2)
  exact h3.isInfix.trans h1.isInfix

theorem prefix_of_collapseSpaces :
    ∀ l w : Line, (∀ c ∈ w, isPySpace c = false) →
      w <+: collapseSpaces l → w <+: l := by
  intro l
  induction l with
  | nil =>
      intro w _ h
      simpa [collapseSpaces] using h
  | cons c rest ih =>
      intro w hw h
      by_cases hc : isPySpace c
      · obtain ⟨t, ht⟩ := @collapseSpaces_cons_space_head c rest hc
        rw [ht] at h
        cases w with
        | nil => exact List.nil_prefix
        | cons a w2 =>
            have ha : a = ' ' := (List.cons_prefix_cons.mp h).1
            have hfalse := hw a (List.mem_cons_self _ _)
            rw [ha] at hfalse
            exact absurd hfalse (by decide)
      · rw [collapseSpaces_cons_nospace hc] at h
        cases w with
        | nil => exact List.nil_prefix
        | cons a w2 =>
            obtain ⟨rfl, h2⟩ := List.cons_prefix_cons.mp h
            exact List.cons_prefix_cons.mpr
              ⟨rfl, ih w2 (fun d hd => hw d (List.mem_cons_of_mem _ hd)) h2⟩

theorem infix_of_collapseSpaces :
    ∀ l w : Line, w ≠ [] → (∀ c ∈ w, isPySpace c = false) →
      w <:+: collapseSpaces l → w <:+: l := by
  intro l
  induction l with
  | nil =>
      intro w hne _ h
      exact absurd (List.eq_nil_of_infix_nil (by simpa [collapseSpaces] using h)) hne
  | cons c rest ih =>
      intro w hne hw h
      have hnospacehead : ∀ (w2 : Line) (t : Line), w <+: ' ' :: t → w = [] := by
        intro _ t hpre
        cases w with
        | nil => rfl
        | cons a w2 =>
            have ha : a = ' ' := (List.cons_prefix_cons.mp hpre).1
            have hfalse := hw a (List.mem_cons_self _ _)
            rw [ha] at hfalse
            exact absurd hfalse (by decide)
      by_cases hc : isPySpace c
      · cases hr : collapseSpaces rest with
        | nil =>
            rw [collapseSpaces_cons_space_nil hc hr] at h
            rcases List.infix_cons_iff.mp h with hpre | hinf
            · exact absurd (hnospacehead w [] hpre) hne
            · exact absurd (List.eq_nil_of_infix_nil hinf) hne
        | cons d tail =>
            by_cases hd : d = ' '
            · subst hd
              rw [collapseSpaces_cons_space_sp hc hr] at h
              have hin : w <:+: collapseSpaces rest := by rw [hr]; exact h
              exact List.infix_cons (ih w hne hw hin)
            · rw [collapseSpaces_cons_space_nsp hc hr hd] at h
              rcases List.infix_cons_iff.mp h with hpre | hinf
              · exact absurd (hnospacehead w _ hpre) hne
              · have hin : w <:+: collapseSpaces rest := by rw [hr]; exact hinf
                exact List.infix_cons (ih w hne hw hin)
      · rw [collapseSpaces_cons_nospace hc] at h
        rcases List.infix_cons_iff.mp h with hpre | hinf
        · cases w with
          | nil => exact absurd rfl hne
          | cons a w2 =>
              obtain ⟨rfl, h2⟩ := List.cons_prefix_cons.mp hpre
              have h3 : w2 <+: rest :=
                prefix_of_collapseSpaces rest w2
                  (fun d hd => hw d (List.mem_cons_of_mem _ hd)) h2
              exact (List.cons_prefix_cons.mpr ⟨rfl, h3⟩).isInfix
        · exact List.infix_cons (ih w hne hw hinf)

/-- Case-folded `"equipos"` containment survives un-normalisation: if the
whitespace-normalised line contains it, so does the original line. -/
theorem containsEquipos_of_normalizeWs (l : Line)
    (h : containsEquipos (normalizeWs l) = true) : containsEquipos l = true := by
  simp only [containsEquipos, containsSub, normalizeWs, decide_eq_true_eq] at h ⊢
  rw [pyStrip_map_pyLower] at h
  have h2 : ("equipos".toList : Line) <:+: (collapseSpaces l).map pyLower :=
    h.trans (pyStrip_infix_mono _)
  rw [collapseSpaces_map_pyLower] at h2
  exact infix_of_collapseSpaces (l.map pyLower) _ (by decide) (by decide) h2

theorem find_section_start_eq_none (lines : List Line)
    (h : ∀ l ∈ lines, containsEquipos l = false) :
    find_section_start lines = none := by
  induction lines with
  | nil => rfl
  | cons l rest ih =>
      have hl := h l (List.mem_cons_self _ _)
      simp only [find_section_start, hl]
      rw [ih (fun x hx => h x (List.mem_cons_of_mem _ hx))]
      rfl

theorem find_section_start_first (lines : List Line)
    (h : ∃ l ∈ lines, containsEquipos l = true) :
    ∃ i, find_section_start lines = some i ∧ i < lines.length ∧
      containsEquipos (lines.getD i []) = true ∧
      ∀ j < i, containsEquipos (lines.getD j []) = false := by
  induction lines with
  | nil => simp at h
  | cons l rest ih =>
      by_cases hl : containsEquipos l = true
      · exact ⟨0, by simp [find_section_start, hl], by simp, by simpa using hl,
          fun j hj => absurd hj (by omega)⟩
      · have hrest : ∃ x ∈ rest, containsEquipos x = true := by
          rcases h with ⟨x, hx, hcx⟩
          rcases List.mem_cons.mp hx with rfl | hx
          · exact absurd hcx hl
          · exact ⟨x, hx, hcx⟩
        obtain ⟨i, hfi, hlt, hci, hbefore⟩ := ih hrest
        refine ⟨i + 1, ?_, by simpa using hlt, by simpa using hci, ?_⟩
        · simp only [find_section_start, hl]
          rw [if_neg (by simp [hl]), hfi]
          rfl
        · intro j hj
          cases j with
          | zero => simpa using eq_false_of_ne_true hl
          | succ k => simpa using hbefore k (by omega)

/-- C2: classification extraction raises the section-not-found error exactly
on inputs with no case-folded `"equipos"` line; and the section-start search
returns the index of the first such line whenever one exists. -/
theorem C2_section_start (pages : List (List Line)) (lines : List Line) :
    ((∀ l ∈ pages.flatten, containsEquipos l = false) →
      extract_classification pages =
        Except.error ("The classification header line was not found in the document.")) ∧
    ((∃ l ∈ lines, containsEquipos l = true) →
      ∃ i, find_section_start lines = some i ∧ i < lines.length ∧
        containsEquipos (lines.getD i []) = true ∧
        ∀ j < i, containsEquipos (lines.getD j []) = false) := by
  constructor
  · intro hno
    have hnone : find_section_start
        (((pages.flatten.filter (fun l => ¬ (pyStrip l).isEmpty)).map normalizeWs)) = none := by
      apply find_section_start_eq_none
      intro l' hl'
      obtain ⟨l, hlmem, rfl⟩ := List.mem_map.mp hl'
      have horig : containsEquipos l = false :=
        hno l (List.mem_of_mem_filter hlmem)
      by_contra hcontra
      have : containsEquipos (normalizeWs l) = true := by
        cases hcn : containsEquipos (normalizeWs l)
        · exact absurd hcn hcontra
        · rfl
      rw [containsEquipos_of_normalizeWs l this] at horig
      cases horig
    simp only [extract_classification]
    rw [hnone]
  · exact find_section_start_first lines

/-- Witness for `C2_section_start`: a two-line document without any
`"equipos"` marker errors out, and a line list with one is located. -/
theorem C2_section_start_witness :
    extract_classification [[("hola".toList : Line)], [("nada".toList : Line)]] =
        Except.error ("The classification header line was not found in the document.") ∧
      ∃ i, find_section_start [("x".toList : Line), ("Equipos Puntos".toList : Line)] =
          some i ∧
        i < ([("x".toList : Line), ("Equipos Puntos".toList : Line)] : List Line).length ∧
        containsEquipos (([("x".toList : Line),
          ("Equipos Puntos".toList : Line)] : List Line).getD i []) = true ∧
        ∀ j < i, containsEquipos (([("x".toList : Line),
          ("Equipos Puntos".toList : Line)] : List Line).getD j []) = false :=
  ⟨(C2_section_start [[("hola".toList : Line)], [("nada".toList : Line)]]
      [("x".toList : Line), ("Equipos Puntos".toList : Line)]).1 (by decide),
    (C2_section_start [[("hola".toList : Line)], [("nada".toList : Line)]]
      [("x".toList : Line), ("Equipos Puntos".toList : Line)]).2 (by decide)⟩

/-- Witness for `C6_segmentation_first_valid` on the digit run `311003130`. -/
theorem C6_segmentation_first_valid_witness :
    segment_digits_sequence [3, 1, 1, 0, 0, 3, 1, 3, 0] =
        some [3, 1, 1, 0, 0, 3, 1, 3, 0] ∧
      ∃ ws : List Nat,
        ValidFrom [3, 1, 1, 0, 0, 3, 1, 3, 0] STAT_LENGTH_RULES 0 [] ws ∧
        ws.length = 9 ∧ ws.sum = ([3, 1, 1, 0, 0, 3, 1, 3, 0] : List Nat).length ∧
        ([3, 1, 1, 0, 0, 3, 1, 3, 0] : List Int) =
          segmentValues [3, 1, 1, 0, 0, 3, 1, 3, 0] 0 ws ∧
        ([3, 1, 1, 0, 0, 3, 1, 3, 0] : List Int).length = 9 ∧
        (∀ k, interim_stats_are_valid
          (([3, 1, 1, 0, 0, 3, 1, 3, 0] : List Int).take k) = true) ∧
        stats_are_consistent [3, 1, 1, 0, 0, 3, 1, 3, 0] = true ∧
        (∀ ws', ValidFrom [3, 1, 1, 0, 0, 3, 1, 3, 0] STAT_LENGTH_RULES 0 [] ws' →
          ws' = ws ∨ List.Lex (· < ·) ws' ws) :=
  ⟨by decide,
    C6_segmentation_first_valid [3, 1, 1, 0, 0, 3, 1, 3, 0]
      [3, 1, 1, 0, 0, 3, 1, 3, 0] (by decide)⟩

end ClassificationExtractor

namespace Models

open RTF

theorem isPyDigit_digitChar (n : Nat) : isPyDigit (digitChar n) = true := by
  unfold digitChar
  have hlt : n % 10 < 10 := Nat.mod_lt _ (by omega)
  generalize n % 10 = k at hlt ⊢
  interval_cases k <;> decide

theorem digitValC_digitChar (n : Nat) : digitValC (digitChar n) = n % 10 := by
  unfold digitChar
  have hlt : n % 10 < 10 := Nat.mod_lt _ (by omega)
  generalize n % 10 = k at hlt ⊢
  interval_cases k <;> decide

theorem parseYear4_pad4 (y : Nat) (h : y ≤ 9999) (rest : Line) :
    parseYear4 (pad4 y ++ rest) = some (y, rest) := by
  show parseYear4 (digitChar (y / 1000) :: digitChar (y / 100) ::
    digitChar (y / 10) :: digitChar y :: rest) = some (y, rest)
  simp only [parseYear4]
  rw [if_pos ⟨isPyDigit_digitChar _, isPyDigit_digitChar _,
    isPyDigit_digitChar _, isPyDigit_digitChar _⟩]
  have hv : natOfDigitChars [digitChar (y / 1000), digitChar (y / 100),
      digitChar (y / 10), digitChar y] = y := by
    show (((0 * 10 + digitValC (digitChar (y / 1000))) * 10 +
        digitValC (digitChar (y / 100))) * 10 +
        digitValC (digitChar (y / 10))) * 10 + digitValC (digitChar y) = y
    rw [digitValC_digitChar, digitValC_digitChar, digitValC_digitChar,
      digitValC_digitChar]
    omega
  rw [hv]

theorem parseMonth_pad2 (m : Nat) (h1 : 1 ≤ m) (h2 : m ≤ 12) (rest : Line) :
    parseMonth (pad2 m ++ rest) = some (m, rest) := by
  interval_cases m <;> rfl

theorem parseDay_pad2 (d : Nat) (h1 : 1 ≤ d) (h2 : d ≤ 31) (rest : Line) :
    parseDay (pad2 d ++ rest) = some (d, rest) := by
  interval_cases d <;> rfl

theorem daysInMonth_le (y m : Nat) : daysInMonth y m ≤ 31 := by
  unfold daysInMonth
  split_ifs <;> omega

/-- Serialising a valid date and parsing it back is the identity. -/
theorem parseIsoDate_isoformat (d : Date) (h : ValidDate d) :
    parseIsoDate d.isoformat = some d := by
  obtain ⟨h1, h2, h3, h4, h5, h6⟩ := h
  have hday : parseDay (pad2 d.day) = some (d.day, []) := by
    have := parseDay_pad2 d.day h5 (le_trans h6 (daysInMonth_le _ _)) []
    simpa using this
  unfold Date.isoformat
  simp only [parseIsoDate, parseYear4_pad4 _ h2, parseMonth_pad2 _ h3 h4, hday]
  rw [if_pos ⟨by trivial, h1, h5, h6⟩]

theorem fixture_roundtrip (f : MatchFixture) (hf : ValidFixture f) :
    MatchFixture.from_dict (f.to_dict none) = f := by
  obtain ⟨hh, ha, hd, ht⟩ := hf
  cases f with
  | mk home away hs as bye date time =>
      simp only [MatchFixture.to_dict, MatchFixture.from_dict] at *
      simp_all [MatchFixture.mk.injEq, Option.getD_some]

theorem lastmatch_team_roundtrip (t : ClassificationLastMatchTeam)
    (h : pyStrip t.name = t.name) :
    ClassificationLastMatchTeam.from_dict t.to_dict = t := by
  cases t with
  | mk name score =>
      simp_all [ClassificationLastMatchTeam.to_dict,
        ClassificationLastMatchTeam.from_dict]

theorem isoformat_ne_nil (d : Date) : d.isoformat.isEmpty = false := by
  unfold Date.isoformat pad4
  rfl

theorem lastmatch_roundtrip (lm : ClassificationLastMatch)
    (hh : pyStrip lm.home_team.name = lm.home_team.name)
    (ha : pyStrip lm.away_team.name = lm.away_team.name)
    (hd : ∀ dt, lm.date = some dt → ValidDate dt) :
    ClassificationLastMatch.from_dict lm.to_dict = lm := by
  cases lm with
  | mk matchday date home away =>
      simp only [ClassificationLastMatch.to_dict, ClassificationLastMatch.from_dict]
      simp only [ClassificationLastMatch.mk.injEq]
      refine ⟨by trivial, ?_, lastmatch_team_roundtrip _ hh, lastmatch_team_roundtrip _ ha⟩
      cases date with
      | none => rfl
      | some dt =>
          have hiso := parseIsoDate_isoformat dt (hd dt rfl)
          simp [isoformat_ne_nil, hiso]

theorem classification_row_roundtrip (r : ClassificationRow) :
    ClassificationRow.from_dict r.to_dict = r := by
  cases r with
  | mk position team stats raw => cases stats; rfl

theorem scorer_entry_roundtrip (e : TopScorerEntry) (position : Int) :
    TopScorerEntry.from_dict (e.to_dict position) = e := by
  cases e; rfl

/-- C3: serialisation followed by deserialisation is the identity on validly
constructed records — for a `Matchday` with fixtures whose strings are
already stripped, for a `ClassificationTable` whose rows carry the nine-key
stats mapping and whose optional last-match summary has stripped names and a
calendar-valid date, and for every `TopScorersTable`. -/
theorem C3_serialization_roundtrip :
    (∀ md : Matchday, (∀ f ∈ md.fixtures, ValidFixture f) →
      Matchday.from_dict (md.to_dict none) = Except.ok md) ∧
    (∀ t : ClassificationTable, ValidTable t →
      ClassificationTable.from_dict t.to_dict = t) ∧
    (∀ ts : TopScorersTable, TopScorersTable.from_dict ts.to_dict = ts) := by
  refine ⟨?_, ?_, ?_⟩
  · intro md hvalid
    cases md with
    | mk number fixtures =>
        simp only [Matchday.to_dict, Matchday.from_dict, List.map_map]
        congr 1
        simp only [Matchday.mk.injEq, true_and]
        calc fixtures.map (MatchFixture.from_dict ∘ fun f => f.to_dict none)
            = fixtures.map id := by
              apply List.map_congr_left
              intro f hf
              exact fixture_roundtrip f (hvalid f hf)
          _ = fixtures := List.map_id _
  · intro t hvalid
    cases t with
    | mk headers rows last_match =>
        simp only [ClassificationTable.to_dict, ClassificationTable.from_dict,
          List.map_map, ClassificationTable.mk.injEq, true_and]
        constructor
        · calc rows.map (ClassificationRow.from_dict ∘ ClassificationRow.to_dict)
              = rows.map id := by
                apply List.map_congr_left
                intro r _
                exact classification_row_roundtrip r
            _ = rows := List.map_id _
        · cases last_match with
          | none => rfl
          | some lm =>
              obtain ⟨hh, ha, hd⟩ := hvalid lm rfl
              simp [lastmatch_roundtrip lm hh ha hd]
  · intro ts
    cases ts with
    | mk title competition category season scorers =>
        simp only [TopScorersTable.to_dict, TopScorersTable.from_dict,
          List.map_map, TopScorersTable.mk.injEq, true_and]
        calc scorers.enum.map
              (TopScorerEntry.from_dict ∘ fun p => p.2.to_dict ((p.1 : Int) + 1))
            = scorers.enum.map Prod.snd := by
              apply List.map_congr_left
              intro p _
              exact scorer_entry_roundtrip p.2 _
          _ = scorers := List.enum_map_snd scorers

/-- Witness for `C3_serialization_roundtrip` on concrete records. -/
theorem C3_serialization_roundtrip_witness :
    Matchday.from_dict (sampleMatchday.to_dict none) = Except.ok sampleMatchday ∧
    ClassificationTable.from_dict sampleTable.to_dict = sampleTable ∧
    TopScorersTable.from_dict sampleScorers.to_dict = sampleScorers :=
  ⟨C3_serialization_roundtrip.1 sampleMatchday
      (by
        intro f hf
        rw [sampleMatchday] at hf
        obtain rfl := List.mem_singleton.mp hf
        exact ⟨by decide, by decide, by decide, by decide⟩),
    C3_serialization_roundtrip.2.1 sampleTable
      (by
        intro lm hlm
        cases hlm
        refine ⟨by decide, by decide, ?_⟩
        intro dt hdt
        cases hdt
        unfold ValidDate
        decide),
    C3_serialization_roundtrip.2.2 sampleScorers⟩

end Models

namespace MatchdayPdf

open RTF Models

theorem stOk_append_nonbye (st : ExtractState) (f0 : MatchFixture)
    (h : StOk st) (hbye : f0.is_bye = false) :
    ∀ f ∈ st.fixtures ++ [f0], byeOk f := by
  intro f hf
  rcases List.mem_append.mp hf with hf | hf
  · exact h f hf
  · obtain rfl := List.mem_singleton.mp hf
    intro habs
    rw [hbye] at habs
    cases habs

theorem finalize_fixture_stOk (st : ExtractState) (h : StOk st) :
    StOk (finalize_fixture st) := by
  unfold finalize_fixture
  split
  · exact stOk_append_nonbye st _ h rfl
  · exact h

set_option maxHeartbeats 2000000 in
theorem consume_team_buffer_stOk (onScoreLine : Bool) (st : ExtractState)
    (h : StOk st) : StOk (consume_team_buffer onScoreLine st) := by
  simp only [consume_team_buffer]
  repeat' split
  all_goals
    first
      | exact h
      | exact finalize_fixture_stOk _ h
      | (intro f hf
         rcases List.mem_append.mp hf with hf | hf
         · exact h f hf
         · obtain rfl := List.mem_singleton.mp hf
           exact fun _ => ⟨rfl, rfl, rfl⟩)

set_option maxHeartbeats 4000000 in
theorem process_line_stOk (st : ExtractState) (line : Line) (h : StOk st) :
    StOk (process_line st line) := by
  simp only [process_line]
  repeat' split
  all_goals
    first
      | exact h
      | (refine consume_team_buffer_stOk _ _ ?_
         intro g hg
         exact h g hg)
      | (intro f hf
         refine finalize_fixture_stOk _ ?_ f hf
         intro g hg
         exact h g hg)
      | (intro f hf
         refine finalize_fixture_stOk _ ?_ f hf
         refine consume_team_buffer_stOk _ _ ?_
         intro g hg
         exact h g hg)
      | (intro f hf
         rcases List.mem_append.mp hf with hf | hf
         · refine finalize_fixture_stOk _ ?_ f hf
           refine consume_team_buffer_stOk _ _ ?_
           intro g hg
           exact h g hg
         · obtain rfl := List.mem_singleton.mp hf
           intro habs
           simp at habs)

theorem foldl_process_line_stOk (lines : List Line) :
    ∀ st : ExtractState, StOk st → StOk (lines.foldl process_line st) := by
  induction lines with
  | nil => intro st h; exact h
  | cons l rest ih =>
      intro st h
      exact ih _ (process_line_stOk st l h)

theorem extract_fixtures_byeOk (lines : List Line) :
    ∀ f ∈ extract_fixtures lines, byeOk f := by
  unfold extract_fixtures
  exact finalize_fixture_stOk _
    (consume_team_buffer_stOk _ _
      (foldl_process_line_stOk lines initState (by intro f hf; cases hf)))

/-- C5 (amended): every fixture produced by the matchday extractor satisfies
the bye invariant — `is_bye = true` implies `away_team`, `home_score` and
`away_score` are all `none` — and `MatchFixture.from_dict` preserves the
invariant whenever the serialized dictionary itself satisfies it.  (Over
arbitrary serialized data the model does not enforce the invariant:
`from_dict` copies `isBye` and `awayTeam` independently.) -/
theorem C5_bye_invariant :
    (∀ lines : List Line, ∀ f ∈ extract_fixtures lines,
      f.is_bye = true →
        f.away_team = none ∧ f.home_score = none ∧ f.away_score = none) ∧
    (∀ d : FixtureDict, FixtureDictByeOk d →
      (MatchFixture.from_dict d).is_bye = true →
        (MatchFixture.from_dict d).away_team = none ∧
        (MatchFixture.from_dict d).home_score = none ∧
        (MatchFixture.from_dict d).away_score = none) := by
  constructor
  · intro lines f hf
    exact extract_fixtures_byeOk lines f hf
  · intro d hd hb
    have hb' : d.isBye = true := hb
    obtain ⟨h1, h2, h3⟩ := hd hb'
    simp [MatchFixture.from_dict, h1, h2, h3]

/-- C5 counterexample: `MatchFixture.from_dict` does not by itself maintain
the bye invariant — a serialized fixture marked as a bye but carrying an away
team deserializes to a fixture with `is_bye = true` and a non-`none`
`away_team`. -/
theorem C5_from_dict_counterexample :
    (MatchFixture.from_dict
        ⟨some (("A").toList), some (("B").toList), some 1, some 2, true,
          none, none⟩).is_bye = true ∧
    (MatchFixture.from_dict
        ⟨some (("A").toList), some (("B").toList), some 1, some 2, true,
          none, none⟩).away_team ≠ none := by
  constructor
  · rfl
  · decide

/-- C5 witness: a concrete "Descansa" line yields a bye fixture with no away
team and no scores, and a concrete bye dictionary satisfying the invariant
deserializes to a fixture with no away team and no scores. -/
theorem C5_bye_invariant_witness :
    ((⟨("REAL TAJO").toList, none, none, none, true, none, none⟩ :
        MatchFixture) ∈ extract_fixtures [("Descansa REAL TAJO").toList] ∧
      ((⟨("REAL TAJO").toList, none, none, none, true, none, none⟩ :
          MatchFixture).away_team = none ∧
        (⟨("REAL TAJO").toList, none, none, none, true, none, none⟩ :
            MatchFixture).home_score = none ∧
        (⟨("REAL TAJO").toList, none, none, none, true, none, none⟩ :
            MatchFixture).away_score = none)) ∧
    (FixtureDictByeOk ⟨some (("REAL TAJO").toList), none, none, none, true,
        none, none⟩ ∧
      ((MatchFixture.from_dict ⟨some (("REAL TAJO").toList), none, none, none,
            true, none, none⟩).away_team = none ∧
        (MatchFixture.from_dict ⟨some (("REAL TAJO").toList), none, none, none,
            true, none, none⟩).home_score = none ∧
        (MatchFixture.from_dict ⟨some (("REAL TAJO").toList), none, none, none,
            true, none, none⟩).away_score = none)) := by
  refine ⟨⟨by decide, ?_⟩, ⟨fun _ => ⟨rfl, rfl, rfl⟩, ?_⟩⟩
  · exact C5_bye_invariant.1 [("Descansa REAL TAJO").toList] _ (by decide) rfl
  · exact C5_bye_invariant.2 _ (fun _ => ⟨rfl, rfl, rfl⟩) rfl

end MatchdayPdf

namespace Models

open RTF

/-- C10: the team-scoped serialization agrees with the unscoped serialization
on every entry other than `homeTeam`/`awayTeam`: the scores, the bye flag, the
date and the time of `to_dict team_name` and `to_dict none` always coincide. -/
theorem C10_to_dict_frame (f : MatchFixture) (team_name : Option Line) :
    (f.to_dict team_name).homeScore = (f.to_dict none).homeScore ∧
    (f.to_dict team_name).awayScore = (f.to_dict none).awayScore ∧
    (f.to_dict team_name).isBye = (f.to_dict none).isBye ∧
    (f.to_dict team_name).date = (f.to_dict none).date ∧
    (f.to_dict team_name).time = (f.to_dict none).time :=
  ⟨rfl, rfl, rfl, rfl, rfl⟩

end Models

namespace MatchdayPdf

open RTF Models

theorem isPySpace_digitChar (n : Nat) : isPySpace (digitChar n) = false := by
  unfold digitChar
  have hlt : n % 10 < 10 := Nat.mod_lt _ (by omega)
  generalize n % 10 = k at hlt ⊢
  interval_cases k <;> decide

theorem mapSlash_digitChar (n : Nat) :
    (if digitChar n = '/' then '-' else digitChar n) = digitChar n := by
  unfold digitChar
  have hlt : n % 10 < 10 := Nat.mod_lt _ (by omega)
  generalize n % 10 = k at hlt ⊢
  interval_cases k <;> decide

theorem dropWhile_eq_self_of_none (p : Char → Bool) :
    ∀ l : Line, (∀ c ∈ l, p c = false) → l.dropWhile p = l
  | [], _ => rfl
  | c :: t, h => by
      simp [List.dropWhile_cons, h c (List.mem_cons_self c t)]

theorem pyStrip_eq_self (l : Line) (h : ∀ c ∈ l, isPySpace c = false) :
    pyStrip l = l := by
  unfold pyStrip
  rw [dropWhile_eq_self_of_none _ _ h,
    dropWhile_eq_self_of_none _ _ (fun c hc => h c (List.mem_reverse.mp hc)),
    List.reverse_reverse]

theorem parseYear2_pad2 (y2 : Nat) (h : y2 ≤ 99) (rest : Line) :
    parseYear2 (pad2 y2 ++ rest) = some (y2, rest) := by
  show parseYear2 (digitChar (y2 / 10) :: digitChar y2 :: rest) = some (y2, rest)
  simp only [parseYear2]
  rw [if_pos ⟨isPyDigit_digitChar _, isPyDigit_digitChar _⟩]
  have hv : natOfDigitChars [digitChar (y2 / 10), digitChar y2] = y2 := by
    show (0 * 10 + digitValC (digitChar (y2 / 10))) * 10 +
      digitValC (digitChar y2) = y2
    rw [digitValC_digitChar, digitValC_digitChar]
    omega
  rw [hv]

/-- On a well-formed `dd-mm-yyyy` rendering of a valid date, the
four-digit-year `strptime` pattern parses back the date. -/
theorem parse_dmY_token (dt : Date) (h : ValidDate dt) :
    parse_dmY (pad2 dt.day ++ '-' :: (pad2 dt.month ++ '-' :: pad4 dt.year)) =
      some dt := by
  obtain ⟨h1, h2, h3, h4, h5, h6⟩ := h
  have hday := parseDay_pad2 dt.day h5 (le_trans h6 (daysInMonth_le _ _))
    ('-' :: (pad2 dt.month ++ '-' :: pad4 dt.year))
  have hmon := parseMonth_pad2 dt.month h3 h4 ('-' :: pad4 dt.year)
  have hyr := parseYear4_pad4 dt.year h2 []
  rw [List.append_nil] at hyr
  simp only [parse_dmY, hday, hmon, hyr]
  rw [if_pos ⟨by trivial, h1, h5, h6⟩]

/-- The four-digit-year pattern rejects a `dd-mm-yy` rendering: two digits
are left where `%Y` demands four. -/
theorem parse_dmY_two_digit_none (d m y2 : Nat) (hd1 : 1 ≤ d) (hd2 : d ≤ 31)
    (hm1 : 1 ≤ m) (hm2 : m ≤ 12) :
    parse_dmY (pad2 d ++ '-' :: (pad2 m ++ '-' :: pad2 y2)) = none := by
  have hday := parseDay_pad2 d hd1 hd2 ('-' :: (pad2 m ++ '-' :: pad2 y2))
  have hmon := parseMonth_pad2 m hm1 hm2 ('-' :: pad2 y2)
  simp only [parse_dmY, hday, hmon]
  rfl

/-- On a well-formed `dd-mm-yy` rendering, the two-digit-year `strptime`
pattern parses the date with the year resolved through the POSIX pivot. -/
theorem parse_dmy_token (d m y2 : Nat) (hd1 : 1 ≤ d) (hm1 : 1 ≤ m)
    (hm2 : m ≤ 12) (hy : y2 ≤ 99)
    (hdm : d ≤ daysInMonth (if y2 ≤ 68 then 2000 + y2 else 1900 + y2) m) :
    parse_dmy (pad2 d ++ '-' :: (pad2 m ++ '-' :: pad2 y2)) =
      some { year := if y2 ≤ 68 then 2000 + y2 else 1900 + y2, month := m,
             day := d } := by
  have hday := parseDay_pad2 d hd1 (le_trans hdm (daysInMonth_le _ _))
    ('-' :: (pad2 m ++ '-' :: pad2 y2))
  have hmon := parseMonth_pad2 m hm1 hm2 ('-' :: pad2 y2)
  have hyr := parseYear2_pad2 y2 hy []
  rw [List.append_nil] at hyr
  simp only [parse_dmy, hday, hmon, hyr]
  rw [if_pos ⟨by trivial, hd1, hdm⟩]

theorem dateTok_no_space (sep : Char) (hsep : sep = '-' ∨ sep = '/')
    (a b : Nat) (ytail : Line) (hy : ∀ c ∈ ytail, isPySpace c = false) :
    ∀ c ∈ pad2 a ++ sep :: (pad2 b ++ sep :: ytail), isPySpace c = false := by
  intro c hc
  simp only [pad2, List.mem_append, List.mem_cons, List.mem_singleton,
    List.not_mem_nil, or_false] at hc
  rcases hc with (rfl | rfl) | rfl | (rfl | rfl) | rfl | hc
  · exact isPySpace_digitChar _
  · exact isPySpace_digitChar _
  · rcases hsep with rfl | rfl <;> decide
  · exact isPySpace_digitChar _
  · exact isPySpace_digitChar _
  · rcases hsep with rfl | rfl <;> decide
  · exact hy c hc

theorem pad2_map_slash (n : Nat) :
    (pad2 n).map (fun c => if c = '/' then '-' else c) = pad2 n := by
  simp only [pad2, List.map_cons, List.map_nil, mapSlash_digitChar]

theorem pad4_map_slash (n : Nat) :
    (pad4 n).map (fun c => if c = '/' then '-' else c) = pad4 n := by
  simp only [pad4, List.map_cons, List.map_nil, mapSlash_digitChar]

theorem dateTok_map_slash (sep : Char) (hsep : sep = '-' ∨ sep = '/')
    (a b : Nat) (ytail : Line)
    (hy : ytail.map (fun c => if c = '/' then '-' else c) = ytail) :
    (pad2 a ++ sep :: (pad2 b ++ sep :: ytail)).map
        (fun c => if c = '/' then '-' else c) =
      pad2 a ++ '-' :: (pad2 b ++ '-' :: ytail) := by
  simp only [List.map_append, List.map_cons, pad2, List.map_nil,
    mapSlash_digitChar, hy]
  rcases hsep with rfl | rfl <;> rfl

/-- C8 (amended): a well-formed `dd-mm-yyyy` or `dd/mm/yyyy` date token is
normalised to ISO `yyyy-mm-dd`; a two-digit year is resolved through the
`strptime` POSIX pivot — 00-68 become 2000-2068 and 69-99 become 1969-1999 —
which matches the document's century only for years through 68. -/
theorem C8_date_normalisation :
    (∀ (dt : Date) (sep : Char), ValidDate dt → (sep = '-' ∨ sep = '/') →
      normalise_date
          (pad2 dt.day ++ sep :: (pad2 dt.month ++ sep :: pad4 dt.year)) =
        dt.isoformat) ∧
    (∀ (d m y2 : Nat) (sep : Char), 1 ≤ d → 1 ≤ m → m ≤ 12 → y2 ≤ 99 →
      (sep = '-' ∨ sep = '/') →
      d ≤ daysInMonth (if y2 ≤ 68 then 2000 + y2 else 1900 + y2) m →
      normalise_date (pad2 d ++ sep :: (pad2 m ++ sep :: pad2 y2)) =
        Date.isoformat
          ⟨(if y2 ≤ 68 then 2000 + y2 else 1900 + y2), m, d⟩) := by
  constructor
  · intro dt sep hv hsep
    have hstrip := pyStrip_eq_self
      (pad2 dt.day ++ sep :: (pad2 dt.month ++ sep :: pad4 dt.year))
      (dateTok_no_space sep hsep dt.day dt.month (pad4 dt.year)
        (fun c hc => by
          simp only [pad4, List.mem_cons, List.not_mem_nil, or_false] at hc
          rcases hc with rfl | rfl | rfl | rfl <;> exact isPySpace_digitChar _))
    have hne : (pad2 dt.day ++ sep ::
        (pad2 dt.month ++ sep :: pad4 dt.year)).isEmpty = false := rfl
    simp only [normalise_date, hstrip, hne, Bool.false_eq_true, if_false,
      dateTok_map_slash sep hsep dt.day dt.month (pad4 dt.year)
        (pad4_map_slash dt.year),
      parse_dmY_token dt hv]
  · intro d m y2 sep hd1 hm1 hm2 hy hsep hdm
    have hd2 : d ≤ 31 := le_trans hdm (daysInMonth_le _ _)
    have hstrip := pyStrip_eq_self
      (pad2 d ++ sep :: (pad2 m ++ sep :: pad2 y2))
      (dateTok_no_space sep hsep d m (pad2 y2)
        (fun c hc => by
          simp only [pad2, List.mem_cons, List.not_mem_nil, or_false] at hc
          rcases hc with rfl | rfl <;> exact isPySpace_digitChar _))
    have hne : (pad2 d ++ sep :: (pad2 m ++ sep :: pad2 y2)).isEmpty =
      false := rfl
    simp only [normalise_date, hstrip, hne, Bool.false_eq_true, if_false,
      dateTok_map_slash sep hsep d m (pad2 y2) (pad2_map_slash y2),
      parse_dmY_two_digit_none d m y2 hd1 hd2 hm1 hm2,
      parse_dmy_token d m y2 hd1 hm1 hm2 hy hdm]

/-- C8 counterexample: the token `01-01-99` is normalised to `1999-01-01` —
the two-digit year 99 resolves through the POSIX pivot to 1999, not to the
document's century (2099). -/
theorem C8_two_digit_century_counterexample :
    normalise_date (("01-01-99").toList) = ("1999-01-01").toList ∧
    normalise_date (("01-01-99").toList) ≠ ("2099-01-01").toList := by
  constructor
  · decide
  · decide

/-- C8 witness: a slash-separated four-digit-year token and a hyphen-separated
two-digit-year token, both below the pivot, normalise to ISO form. -/
theorem C8_date_normalisation_witness :
    normalise_date (("09/03/2025").toList) = ("2025-03-09").toList ∧
    normalise_date (("01-01-26").toList) = ("2026-01-01").toList := by
  constructor
  · have h := C8_date_normalisation.1 { year := 2025, month := 3, day := 9 }
      '/' (by unfold ValidDate daysInMonth; norm_num) (Or.inr rfl)
    rw [show ("09/03/2025").toList =
      pad2 9 ++ '/' :: (pad2 3 ++ '/' :: pad4 2025) from by decide] 
    rw [h]
    decide
  · have h := C8_date_normalisation.2 1 1 26 '-' (by norm_num) (by norm_num)
      (by norm_num) (by norm_num) (Or.inl rfl)
      (by unfold daysInMonth; norm_num)
    rw [show ("01-01-26").toList =
      pad2 1 ++ '-' :: (pad2 1 ++ '-' :: pad2 26) from by decide]
    rw [h]
    decide

end MatchdayPdf

namespace TopScorers

open RTF Models

theorem keyOrder_total (k : TopScorerEntry → Int) :
    IsTotal (Nat × TopScorerEntry) (keyOrder k) := by
  constructor
  intro a b
  rcases lt_trichotomy (k a.2) (k b.2) with h | h | h
  · exact Or.inr (Or.inl h)
  · rcases Nat.le_total a.1 b.1 with hl | hl
    · exact Or.inl (Or.inr ⟨h, hl⟩)
    · exact Or.inr (Or.inr ⟨h.symm, hl⟩)
  · exact Or.inl (Or.inl h)

theorem keyOrder_trans (k : TopScorerEntry → Int) :
    IsTrans (Nat × TopScorerEntry) (keyOrder k) := by
  constructor
  intro a b c hab hbc
  rcases hab with h1 | ⟨e1, l1⟩ <;> rcases hbc with h2 | ⟨e2, l2⟩
  · exact Or.inl (lt_trans h2 h1)
  · exact Or.inl (e2 ▸ h1)
  · exact Or.inl (by rw [e1]; exact h2)
  · exact Or.inr ⟨e1.trans e2, le_trans l1 l2⟩

/-- The sort of either parser is a permutation of the indexed input and is
strictly ordered: descending values, equal values in ascending original
order. -/
theorem sortIndexed_spec (k : TopScorerEntry → Int)
    (entries : List TopScorerEntry) :
    List.Perm (entries.enum.insertionSort (keyOrder k)) entries.enum ∧
    List.Pairwise
      (fun a b => k b.2 < k a.2 ∨ (k a.2 = k b.2 ∧ a.1 < b.1))
      (entries.enum.insertionSort (keyOrder k)) := by
  have hperm := List.perm_insertionSort (keyOrder k) entries.enum
  refine ⟨hperm, ?_⟩
  haveI := keyOrder_total k
  haveI := keyOrder_trans k
  have hsorted := List.sorted_insertionSort (keyOrder k) entries.enum
  have h0 : List.Pairwise (fun a b : Nat × TopScorerEntry => a.1 ≠ b.1)
      entries.enum := by
    refine List.pairwise_map.mp ?_
    rw [List.enum_map_fst]
    exact List.nodup_range _
  have hne : List.Pairwise (fun a b : Nat × TopScorerEntry => a.1 ≠ b.1)
      (entries.enum.insertionSort (keyOrder k)) :=
    (hperm.pairwise_iff (fun hab => Ne.symm hab)).mpr h0
  refine (hsorted.and hne).imp ?_
  intro a b hab
  rcases hab with ⟨h1 | ⟨heq, hle⟩, hab⟩
  · exact Or.inl h1
  · exact Or.inr ⟨heq, lt_of_le_of_ne hle hab⟩

/-- C4 (amended): both top-scorer parsers sort by descending sort value with
the original discovery order breaking ties, but they use different sort
values: the PDF parser maps an absent `goals_total` to `-1` as claimed, while
the Excel parser's `goals_total or -1` also maps a zero `goals_total` to `-1`,
so a zero-goal entry is ordered among the absent-goal entries. -/
theorem C4_scorer_sort :
    (∀ entries : List TopScorerEntry,
      List.Perm (sortIndexedPdf entries) entries.enum ∧
      List.Pairwise (fun a b => goals_value b.2 < goals_value a.2 ∨
        (goals_value a.2 = goals_value b.2 ∧ a.1 < b.1))
        (sortIndexedPdf entries)) ∧
    (∀ entries : List TopScorerEntry,
      List.Perm (sortIndexedExcel entries) entries.enum ∧
      List.Pairwise (fun a b => excel_goals_value b.2 < excel_goals_value a.2 ∨
        (excel_goals_value a.2 = excel_goals_value b.2 ∧ a.1 < b.1))
        (sortIndexedExcel entries)) :=
  ⟨fun entries => sortIndexed_spec goals_value entries,
   fun entries => sortIndexed_spec excel_goals_value entries⟩

/-- C4 counterexample: on an absent-goals entry followed by a zero-goals
entry, the Excel parser keeps the input order — both sort values collapse to
`-1` — although sorting non-increasingly by `goals_total` with only `None` as
`-1` would have to put the zero-goals entry first. -/
theorem C4_excel_sort_counterexample :
    sortScorersExcel [entryNoGoals, entryZeroGoals] =
      [entryNoGoals, entryZeroGoals] ∧
    goals_value entryNoGoals < goals_value entryZeroGoals :=
  ⟨rfl, by decide⟩

end TopScorers

namespace RealTajo

open RTF

/-- C7: on a document whose contact block has a phone line containing
`Teléfono` without a colon, the calendar parser raises an `IndexError` —
whatever the other sub-extractors return, so even when fixtures for the
tracked team are resolved.  The phone step guards only on containment of
`Teléfono` but splits on `Teléfono:`, indexing the absent second part.  This
contradicts the specified error behaviour, under which the only fatal error
is the zero-fixtures one and team-info extraction only degrades. -/
theorem C7_team_info_phone_line_raises :
    ∀ (M : Type)
      (extractCompetitionAndSeason : List Line → Option Line × Option Line)
      (extractTeamNames : List Line → List Line)
      (extractMatches : List Line → List Line → List M)
      (kitSection : List Line → Nat → RealTajoKit × Nat),
      parse M extractCompetitionAndSeason extractTeamNames extractMatches
          kitSection
          [("REAL TAJO Contacto: JUAN").toList, ("Calle Mayor 1").toList,
            ("Teléfono 666111222").toList] =
        Except.error "IndexError: list index out of range" :=
  fun _ _ _ _ _ => rfl

end RealTajo
